import Mathlib

/-!
Verification development for the option parser in src/optparse99.c.

The C source is shallowly embedded below.  Modelling conventions:

- Machine integers are modelled as Int with explicit bounds; the platform is
  LP64 in the C locale (int and uint are 32-bit, long, long long and the
  pointers are 64-bit, char is signed), matching the platform the source
  targets with strtol, strtoul, strtoll, strtoull, INT_MAX and friends.
- C strings are Lean String values (arguments never contain NUL, so the NUL
  terminator of an array of strings is modelled by the end of a Lean list,
  and a read past the last element yields Option.none).  Tokens are treated
  as ASCII, which covers every character class the source inspects.
- The configuration macros of the missing header optparse99.h are taken as
  the feature-complete configuration the spec describes: OPTPARSE_LONG_OPTIONS,
  OPTPARSE_SUBCOMMANDS, OPTPARSE_LIST_SUPPORT, OPTPARSE_ATTACHED_OPTION_ARGUMENTS,
  OPTPARSE_MUTUALLY_EXCLUSIVE_OPTIONS and OPTPARSE_C99_INTEGER_TYPES_SUPPORT
  are enabled; OPTPARSE_FLOATING_POINT_SUPPORT is left out (floating point is
  outside the embedding).  All the embedded code paths are present in the
  source file.
- Fallible code returns Except; a fatal call of optparse_error is modelled by
  an error value that carries the data printed by the corresponding format
  string.
-/

/-- The semantic type tags of enum optparse_data_type.  The constructor
dnone models the zero value of the enum, which the source treats as "no
conversion configured".  Floating point tags are feature-gated in the source
and are not part of the embedding. -/
inductive DataType
  | dnone
  | str
  | char
  | schar
  | uchar
  | shrt
  | ushrt
  | int
  | uint
  | long
  | ulong
  | llong
  | ullong
  | bool
  | int8
  | uint8
  | int16
  | uint16
  | int32
  | uint32
  | int64
  | uint64
deriving DecidableEq

/-- A converted value as stored by strtox: nothing (tag dnone), a string
pointer, an integral value, a boolean, or a list handle produced by
strtoarr. -/
inductive Value
  | vnone
  | vstr (s : String)
  | vint (n : Int)
  | vbool (b : Bool)
  | vlist (vs : List Value)

/-- The two failure kinds of strtox: return value 1 (string not convertible)
and return value -1 (converted data out of range). -/
inductive ConvErr
  | notConvertible
  | outOfRange
deriving DecidableEq

/-! ### The numeral grammar of strtol and strtoul with base 0

strtol(str, endptr, 0) skips isspace characters, reads an optional sign and
then a hexadecimal numeral after a 0x or 0X marker, an octal numeral after a
leading 0, or a decimal numeral.  parseNum returns the sign, the unbounded
magnitude and the unconsumed suffix; Option.none models the no-conversion
case where the library sets endptr back to the start of the string. -/

/-- The isspace class of the C locale. -/
def isSpaceC (c : Char) : Bool :=
  c == ' ' || c == '\t' || c == '\n' || c == '\x0b' || c == '\x0c' || c == '\r'

/-- Value of a decimal digit character. -/
def decVal? (c : Char) : Option Nat :=
  if 48 ≤ c.toNat ∧ c.toNat ≤ 57 then some (c.toNat - 48) else Option.none

/-- Value of an octal digit character. -/
def octVal? (c : Char) : Option Nat :=
  if 48 ≤ c.toNat ∧ c.toNat ≤ 55 then some (c.toNat - 48) else Option.none

/-- Value of a hexadecimal digit character. -/
def hexVal? (c : Char) : Option Nat :=
  if 48 ≤ c.toNat ∧ c.toNat ≤ 57 then some (c.toNat - 48)
  else if 97 ≤ c.toNat ∧ c.toNat ≤ 102 then some (c.toNat - 87)
  else if 65 ≤ c.toNat ∧ c.toNat ≤ 70 then some (c.toNat - 55)
  else Option.none

/-- Consumes the longest run of digits recognized by dv, accumulating their
value in the given base, and returns the value together with the unconsumed
suffix. -/
def digitsRun (dv : Char → Option Nat) (base : Nat) : List Char → Nat → Nat × List Char
  | [], acc => (acc, [])
  | c :: cs, acc =>
    match dv c with
    | some d => digitsRun dv base cs (base * acc + d)
    | Option.none => (acc, c :: cs)

/-- The subject-sequence grammar of strtol and strtoul with base 0: optional
whitespace, optional sign, then a hexadecimal numeral with 0x or 0X marker,
an octal numeral with leading 0, or a decimal numeral.  Returns the sign, the
magnitude and the rest of the input after the last digit; Option.none when no
digit could be consumed (the library then sets endptr to the start). -/
def parseNum (cs0 : List Char) : Option (Bool × Nat × List Char) :=
  let cs1 := cs0.dropWhile isSpaceC
  let neg : Bool := decide (cs1.head? = some '-')
  let cs2 := if cs1.head? = some '-' ∨ cs1.head? = some '+' then cs1.tail else cs1
  match cs2 with
  | [] => Option.none
  | c :: t =>
    if c = '0' then
      match t with
      | [] => some (neg, 0, [])
      | x :: t2 =>
        if x = 'x' ∨ x = 'X' then
          match t2 with
          | [] => some (neg, 0, x :: t2)
          | c2 :: _ =>
            if (hexVal? c2).isSome then
              let r := digitsRun hexVal? 16 t2 0
              some (neg, r.1, r.2)
            else some (neg, 0, x :: t2)
        else
          let r := digitsRun octVal? 8 t 0
          some (neg, r.1, r.2)
    else
      if (decVal? c).isSome then
        let r := digitsRun decVal? 10 (c :: t) 0
        some (neg, r.1, r.2)
      else Option.none

/-! ### Platform bounds (LP64) -/

def INT8_MINv : Int := -(2 ^ 7)
def INT8_MAXv : Int := 2 ^ 7 - 1
def SHRT_MINv : Int := -(2 ^ 15)
def SHRT_MAXv : Int := 2 ^ 15 - 1
def INT_MINv : Int := -(2 ^ 31)
def INT_MAXv : Int := 2 ^ 31 - 1
def LONG_MINv : Int := -(2 ^ 63)
def LONG_MAXv : Int := 2 ^ 63 - 1
def UINT8_MAXv : Int := 2 ^ 8 - 1
def USHRT_MAXv : Int := 2 ^ 16 - 1
def UINT_MAXv : Int := 2 ^ 32 - 1
def ULONG_MAXv : Int := 2 ^ 64 - 1

/-- The strtol-based signed branches of strtox (cases DATA_TYPE_SHRT, INT,
LONG, LLONG, INT8..INT64 of src/optparse99.c:1544-1705).  The source checks
endptr before errno, so a trailing non-numeral wins over a range error.  The
explicit range test of the source compares the clamped long result against
the destination bounds, and strtol itself reports ERANGE outside the long
range; because the destination range is contained in the long range the two
tests combine into a single comparison of the unclamped value against the
destination bounds. -/
def signedConv (lo hi : Int) (s : String) : Except ConvErr Value :=
  match parseNum s.toList with
  | Option.none => .error .notConvertible
  | some (neg, mag, rest) =>
    if rest ≠ [] then .error .notConvertible
    else
      let v : Int := if neg then -(mag : Int) else (mag : Int)
      if v < lo ∨ hi < v then .error .outOfRange else .ok (.vint v)

/-- The strtoul-based unsigned branches of strtox (cases DATA_TYPE_USHRT,
UINT, ULONG, ULLONG, UINT8..UINT64).  strtoul reports ERANGE only when the
magnitude exceeds ULONG_MAX; a negated subject sequence is converted modulo
2 to the 64.  The explicit test of the source then compares the unsigned
long result against the destination maximum. -/
def unsignedConv (hi : Int) (s : String) : Except ConvErr Value :=
  match parseNum s.toList with
  | Option.none => .error .notConvertible
  | some (neg, mag, rest) =>
    if rest ≠ [] then .error .notConvertible
    else if ULONG_MAXv < (mag : Int) then .error .outOfRange
    else
      let u : Int := if neg then (2 ^ 64 - (mag : Int)) % 2 ^ 64 else (mag : Int)
      if hi < u then .error .outOfRange else .ok (.vint u)

/-- ASCII lowering as done by tolower in the C locale. -/
def lowerAscii (s : String) : String :=
  String.mk (s.toList.map (fun c =>
    if 65 ≤ c.toNat ∧ c.toNat ≤ 90 then Char.ofNat (c.toNat + 32) else c))

/-- The DATA_TYPE_BOOL case of strtox (src/optparse99.c:1609-1642).  After
the eight case-insensitive spellings fail, the source calls strtox with
DATA_TYPE_INT and stores the returned STATUS CODE (0 on success, 1 when not
convertible) into the boolean destination; only status -1 routes to the
final endptr test.  errno set to ERANGE by the inner call is still observed
by the outer return sequence.  Consequently:
- every token that parses fully as an in-range int stores false (status 0),
- a token with no numeral at all stores true (status 1, errno clear),
- a numeral with trailing garbage and an out-of-int-range prefix returns -1
  (status 1 with errno ERANGE),
- a full in-grammar numeral out of int range returns 1 (endptr reset to the
  start of the string). -/
def boolConv (s : String) : Except ConvErr Value :=
  let t := lowerAscii s
  if t = "true" then .ok (.vbool true)
  else if t = "false" then .ok (.vbool false)
  else if t = "enabled" then .ok (.vbool true)
  else if t = "disabled" then .ok (.vbool false)
  else if t = "yes" then .ok (.vbool true)
  else if t = "no" then .ok (.vbool false)
  else if t = "on" then .ok (.vbool true)
  else if t = "off" then .ok (.vbool false)
  else
    match parseNum s.toList with
    | Option.none => .ok (.vbool true)
    | some (neg, mag, rest) =>
      let v : Int := if neg then -(mag : Int) else (mag : Int)
      let erange : Bool := decide (v < INT_MINv ∨ INT_MAXv < v)
      if rest ≠ [] then
        if erange then .error .outOfRange else .ok (.vbool true)
      else if erange then .error .notConvertible
      else .ok (.vbool false)

/-- Code of the first character of a token interpreted as a signed C char;
the empty token yields the NUL byte. -/
def headByte (s : String) : Int :=
  let b := (s.toList.getD 0 '\x00').toNat
  if b < 128 then (b : Int) else (b : Int) - 256

/-- Code of the first character interpreted as an unsigned C char. -/
def headByteU (s : String) : Int :=
  ((s.toList.getD 0 '\x00').toNat : Int)

/-- strtox of src/optparse99.c:1513-1726: converts a token according to a
type tag, returning the stored value or one of the two failure codes.  The
tag dnone selects no case of the switch, so the function stores nothing and
reports success.  The char tags store the first byte and set errno to ERANGE
when the token is longer than one character (endptr stays NULL, so the range
error is reported even though the token is not a numeral). -/
def strtox (s : String) (t : DataType) : Except ConvErr Value :=
  match t with
  | .dnone => .ok .vnone
  | .str => .ok (.vstr s)
  | .char => if 1 < s.length then .error .outOfRange else .ok (.vint (headByte s))
  | .schar => if 1 < s.length then .error .outOfRange else .ok (.vint (headByte s))
  | .uchar => if 1 < s.length then .error .outOfRange else .ok (.vint (headByteU s))
  | .shrt => signedConv SHRT_MINv SHRT_MAXv s
  | .int => signedConv INT_MINv INT_MAXv s
  | .long => signedConv LONG_MINv LONG_MAXv s
  | .llong => signedConv LONG_MINv LONG_MAXv s
  | .bool => boolConv s
  | .int8 => signedConv INT8_MINv INT8_MAXv s
  | .int16 => signedConv SHRT_MINv SHRT_MAXv s
  | .int32 => signedConv INT_MINv INT_MAXv s
  | .int64 => signedConv LONG_MINv LONG_MAXv s
  | .ushrt => unsignedConv USHRT_MAXv s
  | .uint => unsignedConv UINT_MAXv s
  | .ulong => unsignedConv ULONG_MAXv s
  | .ullong => unsignedConv ULONG_MAXv s
  | .uint8 => unsignedConv UINT8_MAXv s
  | .uint16 => unsignedConv USHRT_MAXv s
  | .uint32 => unsignedConv UINT_MAXv s
  | .uint64 => unsignedConv ULONG_MAXv s

/-! ### List splitting (strtoarr, src/optparse99.c:173-231)

strtoarr tokenizes its input with strtok, which splits on any character of
the delimiter set and never yields an empty token, converts the tokens in
left-to-right order, and aborts on the first failing token by printing a
fatal message naming that token.  A NULL string or NULL delimiter set yields
an empty array and count 0. -/

/-- strtok-style grouping: splits on any character of ds, keeping empty
groups (they are filtered away afterwards, as strtok skips them). -/
def strtokSplit (ds : List Char) : List Char → List (List Char)
  | [] => [[]]
  | c :: cs =>
    if ds.contains c then [] :: strtokSplit ds cs
    else
      match strtokSplit ds cs with
      | [] => [[c]]
      | g :: gs => (c :: g) :: gs

/-- The sequence of non-empty tokens strtok produces for a string and a
delimiter set. -/
def splitNonEmpty (s delim : String) : List String :=
  ((strtokSplit delim.toList s.toList).filter (fun g => !g.isEmpty)).map
    (fun g => String.mk g)

/-- Converts the tokens in order with strtox, stopping at the first failure
and reporting it together with the offending token. -/
def convItems (t : DataType) : List String → Except (ConvErr × String) (List Value)
  | [] => .ok []
  | item :: rest =>
    match strtox item t with
    | .error e => .error (e, item)
    | .ok v =>
      match convItems t rest with
      | .error e => .error e
      | .ok vs => .ok (v :: vs)

/-- strtoarr: splits a delimiter-separated string and converts each
non-empty item.  A NULL string or NULL delimiter set (modelled by
Option.none) yields the empty array with no error.  The returned list and
its length model the allocated array and the returned item count. -/
def strtoarr (s delim : Option String) (t : DataType) :
    Except (ConvErr × String) (List Value) :=
  match s, delim with
  | some s, some d => convItems t (splitNonEmpty s d)
  | _, _ => .ok []

/-! ### Data model: option descriptors, command descriptors, parser state -/

/-- Flag mutation kinds of enum optparse_flag_type. -/
inductive FlagType
  | setTrue
  | setFalse
  | increment
  | decrement
deriving DecidableEq

/-- Effect of a flag mutation on the int the flag pointer refers to. -/
def applyFlagType : FlagType → Int → Int
  | .setTrue, _ => 1
  | .setFalse, _ => 0
  | .increment, v => v + 1
  | .decrement, v => v - 1

/-- An option descriptor (struct optparse_opt).  Pointer-valued destinations
(flag, arg_storage, arg_storage_size) are modelled as names into the stores
of the parser state; a null pointer is Option.none.  The callback members
(function, function_type) perform no observable action on the modelled state
and are omitted; the hidden member only affects help rendering. -/
structure Opt where
  shortName : Option Char := Option.none
  longName : Option String := Option.none
  argName : Option String := Option.none
  argDataType : DataType := .dnone
  argDelim : Option String := Option.none
  flag : Option (String × FlagType) := Option.none
  argStorage : Option String := Option.none
  argStorageSize : Option String := Option.none
  group : Nat := 0
deriving DecidableEq

/-- A command descriptor (struct optparse_cmd).  The sentinel-terminated
option and subcommand arrays are Lean lists; a null array pointer is
Option.none.  The operand callback (member function) is modelled by a flag
recording whether it is non-null; help-only members are omitted. -/
structure Cmd where
  name : String
  options : Option (List Opt)
  subcommands : Option (List Cmd)
  hasFunction : Bool

/-- Mutable process state observable by the embedded code: the three stores
that pointer destinations of option descriptors refer to, plus the static
exclusive_opts array of check_mutual_exclusivity, which maps a group id to
the first option recorded for that group.  The static array belongs to the
process, not to a parse invocation: nothing in the source ever clears it. -/
structure PState where
  flags : String → Int
  storage : String → Option Value
  storageSize : String → Option Nat
  excl : Nat → Option Opt

/-- The state of a freshly started process: all destinations zeroed and the
static exclusive_opts array zero-initialized. -/
def initState : PState :=
  { flags := fun _ => 0
    storage := fun _ => Option.none
    storageSize := fun _ => Option.none
    excl := fun _ => Option.none }

/-- Fatal parse errors, carrying the data the corresponding optparse_error
format string prints.  outOfFuel is an artifact of the fuelled loop and is
never produced with sufficient fuel. -/
inductive PErr
  | outOfFuel
  | unknownOption (tok : String)
  | unknownShortInSeq (c : Char) (grp : String)
  | unknownCommand (tok : String)
  | missingArgShort (c : Char)
  | missingArgLong (name : String)
  | unwantedArgument (arg : String)
  | mutualExclusion (first second : Opt)
  | argNotValid (arg : String)
  | argOutOfRange (arg : String)
  | listItemNotValid (item : String)
  | listItemOutOfRange (item : String)
deriving DecidableEq

/-- Modelled from the spec: OPTPARSE_MUTUALLY_EXCLUSIVE_GROUPS_MAX is a
configuration macro of the missing header optparse99.h bounding valid group
ids ("a group id must be within the configured maximum"); its concrete value
is immaterial to the claims and is fixed at 10 here. -/
def GROUPS_MAX : Nat := 10

/-- check_mutual_exclusivity (src/optparse99.c:610-629): for an option with
a group id strictly between 0 and GROUPS_MAX, errs fatally, naming the
previously recorded option and the current one, when the static table
already holds an option for that group, and otherwise records the current
option in the table.  The table is the static local exclusive_opts, part of
the process state. -/
def check_mutual_exclusivity (st : PState) (opt : Opt) : Except PErr PState :=
  if 0 < opt.group ∧ opt.group < GROUPS_MAX then
    match st.excl opt.group with
    | some prev => .error (.mutualExclusion prev opt)
    | Option.none =>
      .ok { st with excl := fun g => if g = opt.group then some opt else st.excl g }
  else .ok st

/-- The flag-mutation step of execute_option (src/optparse99.c:276-292). -/
def applyFlag (st : PState) (opt : Opt) : PState :=
  match opt.flag with
  | some (dest, ft) =>
    { st with flags := fun k => if k = dest then applyFlagType ft (st.flags dest) else st.flags k }
  | Option.none => st

/-- The storage-size step of execute_option (src/optparse99.c:337-342): the
list size is stored whenever a delimiter and a size destination are both
configured, also when no option-argument was supplied (the size is then 0). -/
def storeSize (st : PState) (opt : Opt) (n : Nat) : PState :=
  match opt.argDelim, opt.argStorageSize with
  | some _, some dest =>
    { st with storageSize := fun k => if k = dest then some n else st.storageSize k }
  | _, _ => st

/-- execute_option (src/optparse99.c:236-587): applies the flag mutation,
converts the option-argument (as a list when a delimiter is configured, as a
single value when a data type is configured), stores the result in the
configured destination, and stores the list size.  A conversion failure is
fatal with a message naming the offending token.  For DATA_TYPE_STR the
source stores the argument pointer itself, which coincides with the
converted value; for the tag dnone the memcpy has size 0 and stores nothing.
Callback invocation performs no action on the modelled state. -/
def execute_option (st0 : PState) (opt : Opt) (arg : Option String) : Except PErr PState :=
  let st := applyFlag st0 opt
  match arg with
  | Option.none => .ok (storeSize st opt 0)
  | some a =>
    match opt.argDelim with
    | some d =>
      match strtoarr (some a) (some d) opt.argDataType with
      | .error (.notConvertible, item) => .error (.listItemNotValid item)
      | .error (.outOfRange, item) => .error (.listItemOutOfRange item)
      | .ok vs =>
        let st2 :=
          match opt.argStorage with
          | some dest =>
            { st with storage := fun k => if k = dest then some (.vlist vs) else st.storage k }
          | Option.none => st
        .ok (storeSize st2 opt vs.length)
    | Option.none =>
      match (match opt.argDataType with
             | .dnone => .ok .vnone
             | t => strtox a t : Except ConvErr Value) with
      | .error .notConvertible => .error (.argNotValid a)
      | .error .outOfRange => .error (.argOutOfRange a)
      | .ok v =>
        match opt.argStorage with
        | Option.none => .ok st
        | some dest =>
          match opt.argDataType with
          | .dnone => .ok st
          | _ => .ok { st with storage := fun k => if k = dest then some v else st.storage k }

/-! ### Option matching (src/optparse99.c:634-745)

Both matchers receive the current argument vector and scan index, because a
detached option-argument is consumed by advancing the shared index; they
return the updated state together with the updated index. -/

/-- Splits a long-option token at the first equals sign, as the strchr-based
split of execute_long_option does; the part after the sign may be empty. -/
def splitEqGo : List Char → List Char × Option (List Char)
  | [] => ([], Option.none)
  | c :: cs =>
    if c = '=' then ([], some cs)
    else
      match splitEqGo cs with
      | (a, b) => (c :: a, b)

/-- String version of the equals-sign split. -/
def splitEq (s : String) : String × Option String :=
  match splitEqGo s.toList with
  | (a, b) => (String.mk a, b.map (fun l => String.mk l))

/-- First descriptor whose long name is present and matches. -/
def findLong (name : String) : List Opt → Option Opt
  | [] => Option.none
  | o :: os => if o.longName = some name then some o else findLong name os

/-- First descriptor whose short name is present and matches. -/
def findShort (c : Char) : List Opt → Option Opt
  | [] => Option.none
  | o :: os => if o.shortName = some c then some o else findShort c os

/-- Whether the argument-name member marks the option-argument optional
(leading open bracket, src checks arg_name[0] against that character). -/
def argOptional (an : String) : Bool :=
  an.toList.getD 0 '\x00' == '['

/-- execute_long_option (src/optparse99.c:634-676): splits off an attached
value, finds the descriptor by long name, checks mutual exclusivity, then
errs on an unwanted attached value, consumes the next token of the argument
vector for a required argument (fatal when the vector is exhausted), and
executes the option.  A NULL option array or no matching descriptor is a
fatal unknown option (with the unsplit token in the NULL-array case, since
the source jumps to the error before splitting). -/
def execute_long_option (st : PState) (orig : List String) (idx : Nat)
    (tok : String) (options : Option (List Opt)) : Except PErr (PState × Nat) :=
  match options with
  | Option.none => .error (.unknownOption tok)
  | some opts =>
    match splitEq tok with
    | (name, attached) =>
      match findLong name opts with
      | Option.none => .error (.unknownOption name)
      | some opt =>
        match check_mutual_exclusivity st opt with
        | .error e => .error e
        | .ok st1 =>
          match attached with
          | some a =>
            if opt.argName = Option.none then .error (.unwantedArgument a)
            else
              match execute_option st1 opt (some a) with
              | .error e => .error e
              | .ok st2 => .ok (st2, idx)
          | Option.none =>
            match opt.argName with
            | some an =>
              if argOptional an then
                match execute_option st1 opt Option.none with
                | .error e => .error e
                | .ok st2 => .ok (st2, idx)
              else
                match orig.get? (idx + 1) with
                | Option.none => .error (.missingArgLong name)
                | some nxt =>
                  match execute_option st1 opt (some nxt) with
                  | .error e => .error e
                  | .ok st2 => .ok (st2, idx + 1)
            | Option.none =>
              match execute_option st1 opt Option.none with
              | .error e => .error e
              | .ok st2 => .ok (st2, idx)

/-- The unknown-option message format of execute_short_option: a character
inside a cluster of three or more characters is named together with the
cluster, a free-standing option is named by the whole token. -/
def shortUnknownErr (tok : String) (c : Char) : PErr :=
  if 3 ≤ tok.length then .unknownShortInSeq c tok else .unknownOption tok

/-- The character loop of execute_short_option (src/optparse99.c:690-744)
over the remaining cluster characters.  For each character: find the
descriptor, check mutual exclusivity; when trailing text exists, a no-
argument option discards it as its argument and scanning continues into it,
while an argument-taking option consumes it as the attached value and the
loop returns; with no trailing text, a required argument is taken from the
next token of the argument vector (fatal when exhausted) and the loop
returns, otherwise the option executes without argument and the loop ends
at the cluster end. -/
def execute_short_go (orig : List String) (tok : String) (opts : List Opt) :
    PState → Nat → List Char → Except PErr (PState × Nat)
  | st, idx, [] => .ok (st, idx)
  | st, idx, c :: tail =>
    match findShort c opts with
    | Option.none => .error (shortUnknownErr tok c)
    | some opt =>
      match check_mutual_exclusivity st opt with
      | .error e => .error e
      | .ok st1 =>
        match tail with
        | [] =>
          match opt.argName with
          | some an =>
            if argOptional an then
              match execute_option st1 opt Option.none with
              | .error e => .error e
              | .ok st2 => .ok (st2, idx)
            else
              match orig.get? (idx + 1) with
              | Option.none => .error (.missingArgShort c)
              | some nxt =>
                match execute_option st1 opt (some nxt) with
                | .error e => .error e
                | .ok st2 => .ok (st2, idx + 1)
          | Option.none =>
            match execute_option st1 opt Option.none with
            | .error e => .error e
            | .ok st2 => .ok (st2, idx)
        | _ :: _ =>
          match opt.argName with
          | Option.none =>
            match execute_option st1 opt Option.none with
            | .error e => .error e
            | .ok st2 => execute_short_go orig tok opts st2 idx tail
          | some _ =>
            match execute_option st1 opt (some (String.mk tail)) with
            | .error e => .error e
            | .ok st2 => .ok (st2, idx)

/-- execute_short_option (src/optparse99.c:681-745): walks the characters
after the leading dash.  With a NULL option array the source jumps straight
to the unknown-option error for the first cluster character.  A lone dash
with a non-NULL option array is a no-op (the loop body never runs). -/
def execute_short_option (st : PState) (orig : List String) (idx : Nat)
    (tok : String) (options : Option (List Opt)) : Except PErr (PState × Nat) :=
  match options with
  | Option.none => .error (shortUnknownErr tok (tok.toList.getD 1 '\x00'))
  | some opts => execute_short_go orig tok opts st idx (tok.toList.drop 1)

/-! ### The command tree walker (parse, src/optparse99.c:749-813)

The C function works in place on one buffer aliased by args and by the
compacted operand vector; because the write position never passes the read
position, the functional model below reads the original token list and
accumulates the compacted vector separately.  A recursion into a subcommand
re-enters with the compacted vector as the new argument vector, a fresh scan
index of 1 and a fresh ignore-options flag, exactly as the C recursion does.
The loop is fuelled; outOfFuel never occurs with fuel above the total number
of tokens across all nesting levels. -/

/-- Cursor state shared with optparse_shift and optparse_unshift: the args
pointer and args_index of the source. -/
structure Cursor where
  args : List String
  idx : Nat

/-- Result of a parse: the final operand count and compacted vector (the
null terminator of the vector is the list end, so argc always equals the
list length), the final process state, the invocation of the terminal
operand callback when one is configured (argument count and vector it
receives), and the cursor state at callback entry. -/
structure ParseRes where
  argc : Nat
  argv : List String
  st : PState
  callback : Option (Nat × List String)
  cbCursor : Option Cursor

/-- First child command whose name matches the token (the subcommand scan
of parse, src/optparse99.c:775-791). -/
def findSub (tok : String) : List Cmd → Option Cmd
  | [] => Option.none
  | c :: cs => if c.name = tok then some c else findSub tok cs

/-- The token loop of parse.  orig is the argument vector of the current
scope, idx the scan index, out the compacted operand vector built so far
(starting with the program-name slot), ignore the ignore-options mode
entered at a stand-alone double dash. -/
def parseLoop : Nat → PState → List String → Nat → List String → Bool → Cmd →
    Except PErr ParseRes
  | 0, _, _, _, _, _, _ => .error .outOfFuel
  | Nat.succ fuel, st, orig, idx, out, ignore, cmd =>
    match orig.get? idx with
    | Option.none =>
      .ok { argc := out.length
            argv := out
            st := st
            callback := if cmd.hasFunction then some (out.length, out) else Option.none
            cbCursor := if cmd.hasFunction then some { args := out, idx := 0 } else Option.none }
    | some tok =>
      if !ignore && (tok.toList.getD 0 '\x00' == '-') then
        if tok.toList.getD 1 '\x00' == '-' then
          if tok.toList.getD 2 '\x00' == '\x00' then
            parseLoop fuel st orig (idx + 1) out true cmd
          else
            match execute_long_option st orig idx (String.mk (tok.toList.drop 2)) cmd.options with
            | .error e => .error e
            | .ok (st2, idx2) => parseLoop fuel st2 orig (idx2 + 1) out ignore cmd
        else
          match execute_short_option st orig idx tok cmd.options with
          | .error e => .error e
          | .ok (st2, idx2) => parseLoop fuel st2 orig (idx2 + 1) out ignore cmd
      else
        match cmd.subcommands with
        | some subs =>
          match findSub tok subs with
          | some sub =>
            parseLoop fuel st (out ++ orig.drop (idx + 1)) 1
              ((out ++ orig.drop (idx + 1)).take 1) false sub
          | Option.none => .error (.unknownCommand tok)
        | Option.none =>
          parseLoop fuel st orig (idx + 1) (out ++ [tok]) ignore cmd

/-- Entry into one scope of parse: the scan index starts at 1 and the
operand vector keeps the program-name slot (argc is set to 1). -/
def parseTop (fuel : Nat) (st : PState) (argv : List String) (cmd : Cmd) :
    Except PErr ParseRes :=
  parseLoop fuel st argv 1 (argv.take 1) false cmd

/-- optparse_parse (src/optparse99.c:1409-1420): the public top-level
invocation; it initializes globals for help rendering and starts parse on
the root command.  Nothing here or in parse clears the static
exclusive_opts table, so the table carried in the state persists from one
invocation to the next. -/
def optparse_parse (fuel : Nat) (st : PState) (argv : List String) (cmd : Cmd) :
    Except PErr ParseRes :=
  parseTop fuel st argv cmd

/-- optparse_shift (src/optparse99.c:1423-1434): returns NULL when the
current slot already holds the terminator, and otherwise pre-increments the
index and returns the token now current (possibly NULL). -/
def optparse_shift (c : Cursor) : Option String × Cursor :=
  match c.args.get? c.idx with
  | Option.none => (Option.none, c)
  | some _ => (c.args.get? (c.idx + 1), { c with idx := c.idx + 1 })

/-- optparse_unshift (src/optparse99.c:1437-1448): pre-decrements the index
when it is positive and returns the token now current. -/
def optparse_unshift (c : Cursor) : Option String × Cursor :=
  if 0 < c.idx then (c.args.get? (c.idx - 1), { c with idx := c.idx - 1 })
  else (Option.none, c)

/-! ### Result extractors used to state closed evaluation facts -/

def argvOf (r : Except PErr ParseRes) : List String :=
  match r with
  | .ok res => res.argv
  | .error _ => []

def argcOf (r : Except PErr ParseRes) : Nat :=
  match r with
  | .ok res => res.argc
  | .error _ => 0

def stOf (r : Except PErr ParseRes) : PState :=
  match r with
  | .ok res => res.st
  | .error _ => initState

def cbOf (r : Except PErr ParseRes) : Option (Nat × List String) :=
  match r with
  | .ok res => res.callback
  | .error _ => Option.none

def cursorOf (r : Except PErr ParseRes) : Option Cursor :=
  match r with
  | .ok res => res.cbCursor
  | .error _ => Option.none

def flagOf (r : Except PErr ParseRes) (k : String) : Int := (stOf r).flags k

def storageOf (r : Except PErr ParseRes) (k : String) : Option Value := (stOf r).storage k

def isOkE (r : Except PErr ParseRes) : Bool :=
  match r with
  | .ok _ => true
  | .error _ => false

/-! ### Concrete descriptors and command trees used in closed statements -/

/-- Option -a: a plain flag setting destination "a" to 1. -/
def optA6 : Opt := { shortName := some 'a', flag := some ("a", .setTrue) }

/-- Option -b VALUE: required string argument stored in destination "b". -/
def optB6 : Opt :=
  { shortName := some 'b', argName := some "VALUE", argDataType := .str,
    argStorage := some "b" }

/-- Option -v, --verbose: increments destination "v". -/
def optV6 : Opt :=
  { shortName := some 'v', longName := some "verbose", flag := some ("v", .increment) }

/-- Command with the three options above and no subcommands. -/
def cmd6 : Cmd :=
  { name := "prog", options := some [optA6, optB6, optV6],
    subcommands := Option.none, hasFunction := false }

/-- Options -a and -b sharing mutual-exclusion group 1. -/
def mxA : Opt := { shortName := some 'a', group := 1 }
def mxB : Opt := { shortName := some 'b', group := 1 }
def mxCmdAB : Cmd :=
  { name := "prog", options := some [mxA, mxB],
    subcommands := Option.none, hasFunction := false }

/-- Options -c and -d sharing mutual-exclusion group 2. -/
def mxC : Opt := { shortName := some 'c', group := 2 }
def mxD : Opt := { shortName := some 'd', group := 2 }
def mxCmdCD : Cmd :=
  { name := "prog", options := some [mxC, mxD],
    subcommands := Option.none, hasFunction := false }

/-- Subcommand sub with option -x (a flag), under a root command. -/
def c3sub : Cmd :=
  { name := "sub",
    options := some [{ shortName := some 'x', flag := some ("x", .setTrue) }],
    subcommands := Option.none, hasFunction := false }
def c3cmd : Cmd :=
  { name := "prog", options := Option.none,
    subcommands := some [c3sub], hasFunction := false }

/-- Command tree prog > remote > add, the leaf carrying an operand
callback. -/
def addCmd : Cmd :=
  { name := "add", options := Option.none,
    subcommands := Option.none, hasFunction := true }
def remoteCmd : Cmd :=
  { name := "remote", options := Option.none,
    subcommands := some [addCmd], hasFunction := false }
def treeCmd : Cmd :=
  { name := "prog", options := Option.none,
    subcommands := some [remoteCmd], hasFunction := false }

/-- Leaf command with an operand callback and option -b VALUE. -/
def leafF : Cmd :=
  { name := "prog", options := some [optB6],
    subcommands := Option.none, hasFunction := true }

/-- Long option --opt taking no argument. -/
def optNoArg : Opt := { longName := some "opt" }

/-! ### Decimal rendering, used to quantify over tokens denoting a value -/

/-- The character of a decimal digit. -/
def digitChar : Nat → Char
  | 0 => '0'
  | 1 => '1'
  | 2 => '2'
  | 3 => '3'
  | 4 => '4'
  | 5 => '5'
  | 6 => '6'
  | 7 => '7'
  | 8 => '8'
  | 9 => '9'
  | _ => '?'

/-- Most-significant-first decimal digit characters of a natural number. -/
def natChars (n : Nat) : List Char := ((Nat.digits 10 n).map digitChar).reverse

/-- Canonical decimal spelling of a natural number. -/
def natRepr (n : Nat) : String := if n = 0 then "0" else String.mk (natChars n)

/-- Canonical decimal spelling of an integer. -/
def intRepr (v : Int) : String :=
  if v < 0 then String.mk ('-' :: natChars v.natAbs) else natRepr v.natAbs

/-- The sixteen strtol- and strtoul-based integer tags of strtox. -/
def integerTags : List DataType :=
  [.shrt, .ushrt, .int, .uint, .long, .ulong, .llong, .ullong,
   .int8, .uint8, .int16, .uint16, .int32, .uint32, .int64, .uint64]

/-- Smallest representable value of an integer tag (LP64). -/
def tagLo : DataType → Int
  | .shrt => SHRT_MINv
  | .int => INT_MINv
  | .long => LONG_MINv
  | .llong => LONG_MINv
  | .int8 => INT8_MINv
  | .int16 => SHRT_MINv
  | .int32 => INT_MINv
  | .int64 => LONG_MINv
  | _ => 0

/-- Largest representable value of an integer tag (LP64). -/
def tagHi : DataType → Int
  | .shrt => SHRT_MAXv
  | .int => INT_MAXv
  | .long => LONG_MAXv
  | .llong => LONG_MAXv
  | .int8 => INT8_MAXv
  | .int16 => SHRT_MAXv
  | .int32 => INT_MAXv
  | .int64 => LONG_MAXv
  | .ushrt => USHRT_MAXv
  | .uint => UINT_MAXv
  | .ulong => ULONG_MAXv
  | .ullong => ULONG_MAXv
  | .uint8 => UINT8_MAXv
  | .uint16 => USHRT_MAXv
  | .uint32 => UINT_MAXv
  | .uint64 => ULONG_MAXv
  | _ => 0

/-- The signed integer tags among integerTags. -/
def isSignedIntTag : DataType → Bool
  | .shrt | .int | .long | .llong | .int8 | .int16 | .int32 | .int64 => true
  | _ => false

/-- The unsigned integer tags among integerTags. -/
def isUnsignedIntTag : DataType → Bool
  | .ushrt | .uint | .ulong | .ullong | .uint8 | .uint16 | .uint32 | .uint64 => true
  | _ => false

example : strtox "512" .int = .ok (.vint 512) := rfl
example : strtox "-512" .int = .ok (.vint (-512)) := rfl
example : strtox "0x20" .int = .ok (.vint 32) := rfl
example : strtox "010" .int = .ok (.vint 8) := rfl
example : strtox "12q" .int = .error .notConvertible := rfl
example : strtox "" .int = .error .notConvertible := rfl
example : strtox "5000000000" .int = .error .outOfRange := rfl
example : strtox "70000" .shrt = .error .outOfRange := rfl
example : strtox "TRUE" .bool = .ok (.vbool true) := rfl
example : strtox "ofF" .bool = .ok (.vbool false) := rfl
example : strtox "1" .bool = .ok (.vbool false) := rfl
example : strtox "maybe" .bool = .ok (.vbool true) := rfl
example : strtox "-1" .ullong = .ok (.vint 18446744073709551615) := rfl
example : strtox "-1" .uint = .error .outOfRange := rfl

example : splitNonEmpty "a,b,,c" "," = ["a", "b", "c"] := rfl
example : strtoarr (some "a,b,,c") (some ",") .str
    = .ok [.vstr "a", .vstr "b", .vstr "c"] := rfl
example : strtoarr (some "1,x") (some ",") .int = .error (.notConvertible, "x") := rfl

example :
    flagOf (optparse_parse 10 initState ["prog", "-abVALUE", "--verbose", "-v"] cmd6) "a" = 1 := rfl
example :
    storageOf (optparse_parse 10 initState ["prog", "-abVALUE", "--verbose", "-v"] cmd6) "b"
      = some (.vstr "VALUE") := by rfl
example :
    flagOf (optparse_parse 10 initState ["prog", "-abVALUE", "--verbose", "-v"] cmd6) "v" = 2 := rfl

example :
    argvOf (optparse_parse 10 initState ["prog", "remote", "add", "origin", "http"] treeCmd)
      = ["prog", "origin", "http"] := rfl
example :
    cbOf (optparse_parse 10 initState ["prog", "remote", "add", "origin", "http"] treeCmd)
      = some (3, ["prog", "origin", "http"]) := rfl

example :
    optparse_parse 10 initState ["prog", "-a", "-b"] mxCmdAB
      = .error (.mutualExclusion mxA mxB) := rfl
example :
    optparse_parse 10
      (stOf (optparse_parse 10 initState ["prog", "-a"] mxCmdAB)) ["prog", "-b"] mxCmdAB
      = .error (.mutualExclusion mxA mxB) := rfl

example :
    flagOf (optparse_parse 10 initState ["prog", "--", "sub", "-x"] c3cmd) "x" = 1 := rfl
example :
    optparse_parse 10 initState ["prog", "--", "foo"] c3cmd
      = .error (.unknownCommand "foo") := rfl

example :
    execute_long_option initState [] 0 "opt=value" (some [optNoArg])
      = .error (.unwantedArgument "value") := rfl

example : cursorOf (optparse_parse 10 initState ["prog", "x", "y"] leafF)
    = some { args := ["prog", "x", "y"], idx := 0 } := rfl

/-! ### List helper lemmas -/

lemma drop_cons_of_get? {α : Type} (l : List α) (n : Nat) (a : α)
    (h : l.get? n = some a) : l.drop n = a :: l.drop (n + 1) := by
  rw [List.get?_eq_getElem?] at h
  obtain ⟨hlt, he⟩ := List.getElem?_eq_some.mp h
  rw [List.drop_eq_getElem_cons hlt, he]

lemma drop_nil_of_get?_none {α : Type} (l : List α) (n : Nat)
    (h : l.get? n = Option.none) : l.drop n = [] := by
  rw [List.get?_eq_getElem?, List.getElem?_eq_none_iff] at h
  exact List.drop_eq_nil_of_le h

lemma drop_sublist_drop {α : Type} (l : List α) {m n : Nat} (h : m ≤ n) :
    List.Sublist (l.drop n) (l.drop m) := by
  have he : l.drop n = (l.drop m).drop (n - m) := by
    rw [List.drop_drop]
    congr 1
    omega
  rw [he]
  exact List.drop_sublist _ _

lemma take_one_ne_nil {α : Type} {l : List α} (h : l ≠ []) : l.take 1 ≠ [] := by
  cases l <;> simp_all

lemma take_one_append {α : Type} (l r : List α) (h : l ≠ []) :
    (l ++ r).take 1 = l.take 1 := by
  refine List.take_append_of_le_length ?_
  have := List.length_pos.mpr h
  omega

lemma drop_one_append {α : Type} (l r : List α) (h : l ≠ []) :
    (l ++ r).drop 1 = l.drop 1 ++ r := by
  refine List.drop_append_of_le_length ?_
  have := List.length_pos.mpr h
  omega

/-! ### Scan-index monotonicity of the matchers -/

lemma execute_long_option_idx_le {st : PState} {orig : List String} {idx : Nat}
    {tok : String} {options : Option (List Opt)} {st2 : PState} {idx2 : Nat}
    (h : execute_long_option st orig idx tok options = .ok (st2, idx2)) :
    idx ≤ idx2 := by
  unfold execute_long_option at h
  repeat' split at h
  all_goals simp_all
  all_goals omega

lemma execute_short_go_idx_le {orig : List String} {tok : String} {opts : List Opt} :
    ∀ (cs : List Char) (st : PState) (idx : Nat) (st2 : PState) (idx2 : Nat),
      execute_short_go orig tok opts st idx cs = .ok (st2, idx2) → idx ≤ idx2 := by
  intro cs
  induction cs with
  | nil =>
    intro st idx st2 idx2 h
    simp [execute_short_go] at h
    omega
  | cons c tail ih =>
    intro st idx st2 idx2 h
    unfold execute_short_go at h
    repeat' split at h
    all_goals first
      | simp_all
      | (exact ih _ _ _ _ h)
    all_goals omega

lemma execute_short_option_idx_le {st : PState} {orig : List String} {idx : Nat}
    {tok : String} {options : Option (List Opt)} {st2 : PState} {idx2 : Nat}
    (h : execute_short_option st orig idx tok options = .ok (st2, idx2)) :
    idx ≤ idx2 := by
  unfold execute_short_option at h
  split at h
  · simp_all
  · exact execute_short_go_idx_le _ _ _ _ _ h

/-! ### The shape invariant of the walker

On success the compacted vector consists of the program-name slot it started
with followed by operand tokens drawn, in order, from the not-yet-scanned
part of the argument vector; argc counts the vector including slot 0; and
the cursor handed to a terminal callback is the compacted vector with the
scan index reset to 0. -/

lemma parseLoop_shape :
    ∀ (fuel : Nat) (st : PState) (orig : List String) (idx : Nat) (out : List String)
      (ignore : Bool) (cmd : Cmd) (res : ParseRes),
      out ≠ [] →
      parseLoop fuel st orig idx out ignore cmd = .ok res →
      (∃ ops, res.argv = out.take 1 ++ ops
          ∧ List.Sublist ops (out.drop 1 ++ orig.drop idx))
      ∧ res.argc = res.argv.length
      ∧ (∀ c, res.cbCursor = some c → c.args = res.argv ∧ c.idx = 0)
      ∧ (∀ p, res.callback = some p → p.1 = res.argc ∧ p.2 = res.argv) := by
  intro fuel
  induction fuel with
  | zero =>
    intro st orig idx out ignore cmd res hout h
    simp [parseLoop] at h
  | succ fuel ih =>
    intro st orig idx out ignore cmd res hout h
    unfold parseLoop at h
    cases horig : orig.get? idx with
    | none =>
      rw [horig] at h
      simp only [Except.ok.injEq] at h
      subst h
      refine ⟨⟨out.drop 1, ?_, ?_⟩, rfl, ?_, ?_⟩
      · exact (List.take_append_drop 1 out).symm
      · exact List.sublist_append_left _ _
      · intro c hc
        simp only at hc
        split at hc
        · cases hc
          exact ⟨rfl, rfl⟩
        · cases hc
      · intro p hp
        simp only at hp
        split at hp
        · cases hp
          exact ⟨rfl, rfl⟩
        · cases hp
    | some tok =>
      rw [horig] at h
      simp only at h
      split at h
      · -- option-shaped token
        split at h
        · -- second character is a dash
          split at h
          · -- stand-alone double dash: recurse with ignore mode on
            obtain ⟨⟨ops, hargv, hsub⟩, hlen, hcur, hcb⟩ :=
              ih st orig (idx + 1) out true cmd res hout h
            refine ⟨⟨ops, hargv, ?_⟩, hlen, hcur, hcb⟩
            exact hsub.trans
              ((drop_sublist_drop orig (Nat.le_succ idx)).append_left _)
          · -- long option
            cases heq : execute_long_option st orig idx
                (String.mk (tok.toList.drop 2)) cmd.options with
            | error e =>
              rw [heq] at h
              simp at h
            | ok p =>
              obtain ⟨st2, idx2⟩ := p
              rw [heq] at h
              simp only at h
              obtain ⟨⟨ops, hargv, hsub⟩, hlen, hcur, hcb⟩ :=
                ih st2 orig (idx2 + 1) out ignore cmd res hout h
              refine ⟨⟨ops, hargv, ?_⟩, hlen, hcur, hcb⟩
              refine hsub.trans ((drop_sublist_drop orig ?_).append_left _)
              have := execute_long_option_idx_le heq
              omega
        · -- short option cluster
          cases heq : execute_short_option st orig idx tok cmd.options with
          | error e =>
            rw [heq] at h
            simp at h
          | ok p =>
            obtain ⟨st2, idx2⟩ := p
            rw [heq] at h
            simp only at h
            obtain ⟨⟨ops, hargv, hsub⟩, hlen, hcur, hcb⟩ :=
              ih st2 orig (idx2 + 1) out ignore cmd res hout h
            refine ⟨⟨ops, hargv, ?_⟩, hlen, hcur, hcb⟩
            refine hsub.trans ((drop_sublist_drop orig ?_).append_left _)
            have := execute_short_option_idx_le heq
            omega
      · -- operand or subcommand
        split at h
        · -- the command has children
          split at h
          · -- descent into a matched subcommand
            rename_i subs _ sub hfind
            have hne : out ++ orig.drop (idx + 1) ≠ [] := by
              simp [hout]
            obtain ⟨⟨ops, hargv, hsub⟩, hlen, hcur, hcb⟩ :=
              ih st (out ++ orig.drop (idx + 1)) 1
                ((out ++ orig.drop (idx + 1)).take 1) false sub res
                (take_one_ne_nil hne) h
            have h1 : ((out ++ orig.drop (idx + 1)).take 1).take 1
                = (out ++ orig.drop (idx + 1)).take 1 := by
              cases out ++ orig.drop (idx + 1) <;> simp
            have h2 : ((out ++ orig.drop (idx + 1)).take 1).drop 1 = [] := by
              cases out ++ orig.drop (idx + 1) <;> simp
            rw [h1, take_one_append _ _ hout] at hargv
            rw [h2, List.nil_append, drop_one_append _ _ hout] at hsub
            refine ⟨⟨ops, hargv, ?_⟩, hlen, hcur, hcb⟩
            exact hsub.trans
              ((drop_sublist_drop orig (Nat.le_succ idx)).append_left _)
          · exact absurd h (by simp)
        · -- leaf scope: the token is appended as an operand
          have hne : out ++ [tok] ≠ [] := by simp
          obtain ⟨⟨ops, hargv, hsub⟩, hlen, hcur, hcb⟩ :=
            ih st orig (idx + 1) (out ++ [tok]) ignore cmd res hne h
          rw [take_one_append _ _ hout] at hargv
          rw [drop_one_append _ _ hout, List.append_assoc] at hsub
          refine ⟨⟨ops, hargv, ?_⟩, hlen, hcur, hcb⟩
          rw [drop_cons_of_get? orig idx tok horig]
          exact hsub

/-! ### Persistence of the mutual-exclusion table

The static exclusive_opts array is only ever written by
check_mutual_exclusivity, and only at a slot that was empty; no code clears
it.  Hence an entry recorded at any point survives every later successful
call, including entire parse invocations. -/

lemma applyFlag_excl (st : PState) (opt : Opt) : (applyFlag st opt).excl = st.excl := by
  unfold applyFlag
  split <;> rfl

lemma storeSize_excl (st : PState) (opt : Opt) (n : Nat) :
    (storeSize st opt n).excl = st.excl := by
  unfold storeSize
  split <;> rfl

lemma execute_option_excl {st : PState} {opt : Opt} {a : Option String} {st2 : PState}
    (h : execute_option st opt a = .ok st2) : st2.excl = st.excl := by
  unfold execute_option at h
  repeat' split at h
  all_goals simp_all [applyFlag_excl, storeSize_excl]
  all_goals subst h
  all_goals simp [applyFlag_excl, storeSize_excl]

lemma check_mutual_exclusivity_excl_mono {st : PState} {opt : Opt} {st2 : PState}
    (h : check_mutual_exclusivity st opt = .ok st2) {g : Nat} {o : Opt}
    (hg : st.excl g = some o) : st2.excl g = some o := by
  unfold check_mutual_exclusivity at h
  split at h
  · split at h
    · simp at h
    · rename_i hnone
      simp only [Except.ok.injEq] at h
      subst h
      simp only
      by_cases hgq : g = opt.group
      · rw [hgq] at hg
        rw [hg] at hnone
        cases hnone
      · simp [hgq, hg]
  · simp only [Except.ok.injEq] at h
    subst h
    exact hg

lemma execute_long_option_excl_mono {st : PState} {orig : List String} {idx : Nat}
    {tok : String} {options : Option (List Opt)} {st2 : PState} {idx2 : Nat}
    (h : execute_long_option st orig idx tok options = .ok (st2, idx2))
    {g : Nat} {o : Opt} (hg : st.excl g = some o) : st2.excl g = some o := by
  unfold execute_long_option at h
  cases options with
  | none => simp at h
  | some opts =>
    simp only at h
    rcases hsp : splitEq tok with ⟨name, att⟩
    rw [hsp] at h
    simp only at h
    cases hf : findLong name opts with
    | none =>
      rw [hf] at h
      simp at h
    | some opt =>
      rw [hf] at h
      simp only at h
      cases hchk : check_mutual_exclusivity st opt with
      | error e =>
        rw [hchk] at h
        simp at h
      | ok st1 =>
        rw [hchk] at h
        simp only at h
        have hg1 : st1.excl g = some o := check_mutual_exclusivity_excl_mono hchk hg
        cases att with
        | some a =>
          simp only at h
          split at h
          · simp at h
          · cases hex : execute_option st1 opt (some a) with
            | error e =>
              rw [hex] at h
              simp at h
            | ok st3 =>
              rw [hex] at h
              simp only [Except.ok.injEq, Prod.mk.injEq] at h
              obtain ⟨h1, h2⟩ := h
              subst h1
              rw [execute_option_excl hex]
              exact hg1
        | none =>
          simp only at h
          cases han : opt.argName with
          | some an =>
            rw [han] at h
            simp only at h
            split at h
            · cases hex : execute_option st1 opt Option.none with
              | error e =>
                rw [hex] at h
                simp at h
              | ok st3 =>
                rw [hex] at h
                simp only [Except.ok.injEq, Prod.mk.injEq] at h
                obtain ⟨h1, h2⟩ := h
                subst h1
                rw [execute_option_excl hex]
                exact hg1
            · cases hnxt : orig.get? (idx + 1) with
              | none =>
                rw [hnxt] at h
                simp at h
              | some nxt =>
                rw [hnxt] at h
                simp only at h
                cases hex : execute_option st1 opt (some nxt) with
                | error e =>
                  rw [hex] at h
                  simp at h
                | ok st3 =>
                  rw [hex] at h
                  simp only [Except.ok.injEq, Prod.mk.injEq] at h
                  obtain ⟨h1, h2⟩ := h
                  subst h1
                  rw [execute_option_excl hex]
                  exact hg1
          | none =>
            rw [han] at h
            simp only at h
            cases hex : execute_option st1 opt Option.none with
            | error e =>
              rw [hex] at h
              simp at h
            | ok st3 =>
              rw [hex] at h
              simp only [Except.ok.injEq, Prod.mk.injEq] at h
              obtain ⟨h1, h2⟩ := h
              subst h1
              rw [execute_option_excl hex]
              exact hg1

lemma execute_short_go_excl_mono {orig : List String} {tok : String} {opts : List Opt} :
    ∀ (cs : List Char) (st : PState) (idx : Nat) (st2 : PState) (idx2 : Nat),
      execute_short_go orig tok opts st idx cs = .ok (st2, idx2) →
      ∀ {g : Nat} {o : Opt}, st.excl g = some o → st2.excl g = some o := by
  intro cs
  induction cs with
  | nil =>
    intro st idx st2 idx2 h g o hg
    simp [execute_short_go] at h
    obtain ⟨h1, h2⟩ := h
    subst h1
    exact hg
  | cons c tail ih =>
    intro st idx st2 idx2 h g o hg
    unfold execute_short_go at h
    cases hf : findShort c opts with
    | none =>
      rw [hf] at h
      simp at h
    | some opt =>
      rw [hf] at h
      simp only at h
      cases hchk : check_mutual_exclusivity st opt with
      | error e =>
        rw [hchk] at h
        simp at h
      | ok st1 =>
        rw [hchk] at h
        simp only at h
        have hg1 : st1.excl g = some o := check_mutual_exclusivity_excl_mono hchk hg
        cases tail with
        | nil =>
          simp only at h
          cases han : opt.argName with
          | some an =>
            rw [han] at h
            simp only at h
            split at h
            · cases hex : execute_option st1 opt Option.none with
              | error e =>
                rw [hex] at h
                simp at h
              | ok st3 =>
                rw [hex] at h
                simp only [Except.ok.injEq, Prod.mk.injEq] at h
                obtain ⟨h1, h2⟩ := h
                subst h1
                rw [execute_option_excl hex]
                exact hg1
            · cases hnxt : orig.get? (idx + 1) with
              | none =>
                rw [hnxt] at h
                simp at h
              | some nxt =>
                rw [hnxt] at h
                simp only at h
                cases hex : execute_option st1 opt (some nxt) with
                | error e =>
                  rw [hex] at h
                  simp at h
                | ok st3 =>
                  rw [hex] at h
                  simp only [Except.ok.injEq, Prod.mk.injEq] at h
                  obtain ⟨h1, h2⟩ := h
                  subst h1
                  rw [execute_option_excl hex]
                  exact hg1
          | none =>
            rw [han] at h
            simp only at h
            cases hex : execute_option st1 opt Option.none with
            | error e =>
              rw [hex] at h
              simp at h
            | ok st3 =>
              rw [hex] at h
              simp only [Except.ok.injEq, Prod.mk.injEq] at h
              obtain ⟨h1, h2⟩ := h
              subst h1
              rw [execute_option_excl hex]
              exact hg1
        | cons c2 tail2 =>
          simp only at h
          cases han : opt.argName with
          | none =>
            rw [han] at h
            simp only at h
            cases hex : execute_option st1 opt Option.none with
            | error e =>
              rw [hex] at h
              simp at h
            | ok st3 =>
              rw [hex] at h
              simp only at h
              have hg3 : st3.excl g = some o := by
                rw [execute_option_excl hex]
                exact hg1
              exact ih st3 idx st2 idx2 h hg3
          | some an =>
            rw [han] at h
            simp only at h
            cases hex : execute_option st1 opt (some (String.mk (c2 :: tail2))) with
            | error e =>
              rw [hex] at h
              simp at h
            | ok st3 =>
              rw [hex] at h
              simp only [Except.ok.injEq, Prod.mk.injEq] at h
              obtain ⟨h1, h2⟩ := h
              subst h1
              rw [execute_option_excl hex]
              exact hg1

lemma execute_short_option_excl_mono {st : PState} {orig : List String} {idx : Nat}
    {tok : String} {options : Option (List Opt)} {st2 : PState} {idx2 : Nat}
    (h : execute_short_option st orig idx tok options = .ok (st2, idx2))
    {g : Nat} {o : Opt} (hg : st.excl g = some o) : st2.excl g = some o := by
  unfold execute_short_option at h
  cases options with
  | none => simp at h
  | some opts => exact execute_short_go_excl_mono _ _ _ _ _ h hg

lemma parseLoop_excl_mono :
    ∀ (fuel : Nat) (st : PState) (orig : List String) (idx : Nat) (out : List String)
      (ignore : Bool) (cmd : Cmd) (res : ParseRes),
      parseLoop fuel st orig idx out ignore cmd = .ok res →
      ∀ {g : Nat} {o : Opt}, st.excl g = some o → res.st.excl g = some o := by
  intro fuel
  induction fuel with
  | zero =>
    intro st orig idx out ignore cmd res h
    simp [parseLoop] at h
  | succ fuel ih =>
    intro st orig idx out ignore cmd res h g o hg
    unfold parseLoop at h
    cases horig : orig.get? idx with
    | none =>
      rw [horig] at h
      simp only [Except.ok.injEq] at h
      subst h
      exact hg
    | some tok =>
      rw [horig] at h
      simp only at h
      split at h
      · split at h
        · split at h
          · exact ih st orig (idx + 1) out true cmd res h hg
          · cases heq : execute_long_option st orig idx
                (String.mk (tok.toList.drop 2)) cmd.options with
            | error e =>
              rw [heq] at h
              simp at h
            | ok p =>
              obtain ⟨st2, idx2⟩ := p
              rw [heq] at h
              simp only at h
              exact ih st2 orig (idx2 + 1) out ignore cmd res h
                (execute_long_option_excl_mono heq hg)
        · cases heq : execute_short_option st orig idx tok cmd.options with
          | error e =>
            rw [heq] at h
            simp at h
          | ok p =>
            obtain ⟨st2, idx2⟩ := p
            rw [heq] at h
            simp only at h
            exact ih st2 orig (idx2 + 1) out ignore cmd res h
              (execute_short_option_excl_mono heq hg)
      · split at h
        · split at h
          · rename_i subs _ sub hfind
            exact ih st (out ++ orig.drop (idx + 1)) 1
              ((out ++ orig.drop (idx + 1)).take 1) false sub res h hg
          · exact absurd h (by simp)
        · exact ih st orig (idx + 1) (out ++ [tok]) ignore cmd res h hg

lemma lt_length_of_get? {α : Type} {l : List α} {n : Nat} {a : α}
    (h : l.get? n = some a) : n < l.length := by
  rw [List.get?_eq_getElem?] at h
  exact (List.getElem?_eq_some.mp h).1

/-! ### Behavior of ignore-options mode in a leaf scope

Once the stand-alone double dash has switched the current scope into
ignore-options mode, a command without children appends every remaining
token, option-looking or not, to the operand vector and never errs. -/

lemma parseLoop_ignore_leaf :
    ∀ (fuel : Nat) (st : PState) (orig : List String) (idx : Nat) (out : List String)
      (cmd : Cmd), cmd.subcommands = Option.none → 0 < fuel →
      orig.length < idx + fuel →
      parseLoop fuel st orig idx out true cmd =
        .ok { argc := (out ++ orig.drop idx).length
              argv := out ++ orig.drop idx
              st := st
              callback := if cmd.hasFunction then
                  some ((out ++ orig.drop idx).length, out ++ orig.drop idx)
                else Option.none
              cbCursor := if cmd.hasFunction then
                  some { args := out ++ orig.drop idx, idx := 0 }
                else Option.none } := by
  intro fuel
  induction fuel with
  | zero =>
    intro st orig idx out cmd hsub hpos hlen
    omega
  | succ fuel ih =>
    intro st orig idx out cmd hsub hpos hlen
    unfold parseLoop
    cases horig : orig.get? idx with
    | none =>
      simp [drop_nil_of_get?_none orig idx horig]
    | some tok =>
      simp only [Bool.not_true, Bool.false_and, Bool.false_eq_true, if_false, hsub]
      have hidx : idx < orig.length := lt_length_of_get? horig
      have hfpos : 0 < fuel := by omega
      rw [ih st orig (idx + 1) (out ++ [tok]) cmd hsub hfpos (by omega)]
      have hdrop : orig.drop idx = tok :: orig.drop (idx + 1) :=
        drop_cons_of_get? orig idx tok horig
      rw [List.append_assoc, hdrop]
      simp

/-! ### Correctness of the decimal spelling with respect to the numeral
grammar: parseNum consumes the canonical decimal rendering entirely and
recovers sign and magnitude. -/

lemma decVal?_digitChar {d : Nat} (h : d < 10) : decVal? (digitChar d) = some d := by
  interval_cases d <;> rfl

lemma digitChar_not_space {d : Nat} (h : d < 10) : isSpaceC (digitChar d) = false := by
  interval_cases d <;> rfl

lemma digitChar_ne_dash {d : Nat} (h : d < 10) : digitChar d ≠ '-' := by
  interval_cases d <;> decide

lemma digitChar_ne_plus {d : Nat} (h : d < 10) : digitChar d ≠ '+' := by
  interval_cases d <;> decide

lemma digitChar_ne_zero {d : Nat} (h : d < 10) (h0 : d ≠ 0) : digitChar d ≠ '0' := by
  interval_cases d <;> simp_all <;> decide

lemma digitsRun_digits (ds : List Nat) (acc : Nat) (h : ∀ d ∈ ds, d < 10) :
    digitsRun decVal? 10 (ds.map digitChar) acc
      = (ds.foldl (fun a d => 10 * a + d) acc, []) := by
  induction ds generalizing acc with
  | nil => rfl
  | cons d ds ihd =>
    have hd : d < 10 := h d (List.mem_cons_self d ds)
    simp only [List.map_cons, digitsRun, decVal?_digitChar hd]
    rw [ihd (10 * acc + d) (fun x hx => h x (List.mem_cons_of_mem d hx))]
    simp [List.foldl]

lemma foldl_rev_ofDigits (ds : List Nat) (acc : Nat) :
    (ds.reverse).foldl (fun a d => 10 * a + d) acc
      = acc * 10 ^ ds.length + Nat.ofDigits 10 ds := by
  induction ds generalizing acc with
  | nil => simp [Nat.ofDigits]
  | cons d ds ihd =>
    rw [List.reverse_cons, List.foldl_append, ihd]
    simp only [List.foldl_cons, List.foldl_nil, List.length_cons, Nat.ofDigits_cons, pow_succ]
    ring

lemma parseNum_dec_head {c : Char} {d : Nat} (t : List Char)
    (hc : decVal? c = some d) (h0 : c ≠ '0') :
    parseNum (c :: t)
      = some (false, (digitsRun decVal? 10 (c :: t) 0).1,
          (digitsRun decVal? 10 (c :: t) 0).2) := by
  have hcond : 48 ≤ c.toNat ∧ c.toNat ≤ 57 := by
    by_cases hcond : 48 ≤ c.toNat ∧ c.toNat ≤ 57
    · exact hcond
    · simp [decVal?, hcond] at hc
  have hsp : isSpaceC c = false := by
    simp only [isSpaceC, Bool.or_eq_false_iff, beq_eq_false_iff_ne]
    refine ⟨⟨⟨⟨⟨?_, ?_⟩, ?_⟩, ?_⟩, ?_⟩, ?_⟩ <;>
      (intro he; subst he; exact absurd hcond (by decide))
  have hdash : c ≠ '-' := by
    intro he
    subst he
    exact absurd hcond (by decide)
  have hplus : c ≠ '+' := by
    intro he
    subst he
    exact absurd hcond (by decide)
  unfold parseNum
  simp only [List.dropWhile_cons, hsp, Bool.false_eq_true, if_false, List.head?_cons,
    Option.some.injEq, hdash, hplus, or_self, if_false, decide_eq_true_eq, decide_eq_false,
    h0, hc, Option.isSome_some, if_true]
  simp [hdash, hplus, h0, hc]

lemma parseNum_dec_neg {c : Char} {d : Nat} (t : List Char)
    (hc : decVal? c = some d) (h0 : c ≠ '0') :
    parseNum ('-' :: c :: t)
      = some (true, (digitsRun decVal? 10 (c :: t) 0).1,
          (digitsRun decVal? 10 (c :: t) 0).2) := by
  have hcond : 48 ≤ c.toNat ∧ c.toNat ≤ 57 := by
    by_cases hcond : 48 ≤ c.toNat ∧ c.toNat ≤ 57
    · exact hcond
    · simp [decVal?, hcond] at hc
  unfold parseNum
  have hspd : isSpaceC '-' = false := rfl
  simp only [List.dropWhile_cons, hspd, Bool.false_eq_true, if_false, List.head?_cons,
    Option.some.injEq, List.tail_cons]
  simp [h0, hc]

lemma toList_natRepr (n : Nat) (hn : n ≠ 0) : (natRepr n).toList = natChars n := by
  simp [natRepr, hn]

lemma natChars_spec (n : Nat) (hn : n ≠ 0) :
    ∃ d ds, natChars n = digitChar d :: ds.map digitChar
      ∧ d ≠ 0 ∧ d < 10 ∧ (∀ x ∈ ds, x < 10)
      ∧ (d :: ds).foldl (fun a x => 10 * a + x) 0 = n := by
  have hL : Nat.digits 10 n ≠ [] := Nat.digits_ne_nil_iff_ne_zero.mpr hn
  have hLrev : (Nat.digits 10 n).reverse ≠ [] := by
    simp [hL]
  obtain ⟨d, ds, hrev⟩ := List.exists_cons_of_ne_nil hLrev
  refine ⟨d, ds, ?_, ?_, ?_, ?_, ?_⟩
  · unfold natChars
    rw [← List.map_reverse, hrev]
    rfl
  · have h1 : (Nat.digits 10 n).getLast? = some ((Nat.digits 10 n).getLast hL) :=
      List.getLast?_eq_getLast_of_ne_nil hL
    have h2 : (Nat.digits 10 n).reverse.head? = some d := by
      rw [hrev]
      rfl
    rw [List.head?_reverse, h1, Option.some.injEq] at h2
    rw [← h2]
    exact Nat.getLast_digit_ne_zero 10 hn
  · have hd : d ∈ Nat.digits 10 n := by
      have : d ∈ (Nat.digits 10 n).reverse := by
        rw [hrev]
        exact List.mem_cons_self d ds
      exact List.mem_reverse.mp this
    exact Nat.digits_lt_base (by norm_num) hd
  · intro x hx
    have : x ∈ (Nat.digits 10 n).reverse := by
      rw [hrev]
      exact List.mem_cons_of_mem d hx
    exact Nat.digits_lt_base (by norm_num) (List.mem_reverse.mp this)
  · have : d :: ds = (Nat.digits 10 n).reverse := hrev.symm
    rw [this, foldl_rev_ofDigits]
    simp [Nat.ofDigits_digits]

lemma parseNum_natRepr (n : Nat) : parseNum (natRepr n).toList = some (false, n, []) := by
  by_cases hn : n = 0
  · subst hn
    rfl
  · obtain ⟨d, ds, hnc, hd0, hd10, hds10, hfold⟩ := natChars_spec n hn
    rw [toList_natRepr n hn, hnc]
    rw [parseNum_dec_head (ds.map digitChar) (decVal?_digitChar hd10)
      (digitChar_ne_zero hd10 hd0)]
    have hmap : digitChar d :: List.map digitChar ds = (d :: ds).map digitChar := rfl
    rw [hmap, digitsRun_digits (d :: ds) 0 (by
      intro x hx
      rcases List.mem_cons.mp hx with h | h
      · rw [h]; exact hd10
      · exact hds10 x h)]
    rw [hfold]

lemma parseNum_intRepr_neg (v : Int) (hv : v < 0) :
    parseNum (intRepr v).toList = some (true, v.natAbs, []) := by
  have hn : v.natAbs ≠ 0 := by
    simp only [ne_eq, Int.natAbs_eq_zero]
    omega
  obtain ⟨d, ds, hnc, hd0, hd10, hds10, hfold⟩ := natChars_spec v.natAbs hn
  have htl : (intRepr v).toList = '-' :: natChars v.natAbs := by
    simp [intRepr, hv]
  rw [htl, hnc]
  rw [parseNum_dec_neg (ds.map digitChar) (decVal?_digitChar hd10)
    (digitChar_ne_zero hd10 hd0)]
  have hmap : digitChar d :: List.map digitChar ds = (d :: ds).map digitChar := rfl
  rw [hmap, digitsRun_digits (d :: ds) 0 (by
    intro x hx
    rcases List.mem_cons.mp hx with h | h
    · rw [h]; exact hd10
    · exact hds10 x h)]
  rw [hfold]

lemma parseNum_intRepr_nonneg (v : Int) (hv : 0 ≤ v) :
    parseNum (intRepr v).toList = some (false, v.natAbs, []) := by
  have : intRepr v = natRepr v.natAbs := by
    simp [intRepr, not_lt.mpr hv]
  rw [this, parseNum_natRepr]

/-! ### Behavior of the conversion branches on canonical decimal tokens -/

lemma signedConv_intRepr (lo hi v : Int) :
    signedConv lo hi (intRepr v)
      = if v < lo ∨ hi < v then .error .outOfRange else .ok (.vint v) := by
  by_cases hv : v < 0
  · unfold signedConv
    rw [parseNum_intRepr_neg v hv]
    have hval : -|v| = v := by
      rw [abs_of_neg hv]
      ring
    simp [hval]
  · unfold signedConv
    rw [parseNum_intRepr_nonneg v (by omega)]
    have hval : ((v.natAbs : Nat) : Int) = v := by omega
    simp [hval]

lemma unsignedConv_intRepr_nonneg (hi v : Int) (hv : 0 ≤ v) :
    unsignedConv hi (intRepr v)
      = if ULONG_MAXv < v then .error .outOfRange
        else if hi < v then .error .outOfRange else .ok (.vint v) := by
  unfold unsignedConv
  rw [parseNum_intRepr_nonneg v hv]
  have hval : ((v.natAbs : Nat) : Int) = v := by omega
  simp [hval]

lemma unsignedConv_intRepr_neg (hi v : Int) (h1 : v < 0) (h2 : -(2 ^ 64) < v) :
    unsignedConv hi (intRepr v)
      = if hi < 2 ^ 64 + v then .error .outOfRange else .ok (.vint (2 ^ 64 + v)) := by
  unfold unsignedConv
  rw [parseNum_intRepr_neg v h1]
  have habs : |v| = -v := abs_of_neg h1
  have hle : ¬ ULONG_MAXv < |v| := by
    rw [habs]
    unfold ULONG_MAXv
    omega
  have hmod : ((18446744073709551616 : Int) - |v|) % 18446744073709551616
      = 18446744073709551616 + v := by
    rw [habs]
    have he : (18446744073709551616 : Int) - -v = 18446744073709551616 + v := by ring
    rw [he]
    exact Int.emod_eq_of_lt (by omega) (by omega)
  simp [hle, hmod]

/-! ### Characterization of the item conversion loop of strtoarr -/

lemma convItems_ok_iff (t : DataType) :
    ∀ (items : List String) (vs : List Value),
      convItems t items = .ok vs ↔
        List.Forall₂ (fun item v => strtox item t = .ok v) items vs := by
  intro items
  induction items with
  | nil =>
    intro vs
    constructor
    · intro h
      simp only [convItems, Except.ok.injEq] at h
      subst h
      exact List.Forall₂.nil
    · intro h
      cases h
      rfl
  | cons item rest ih =>
    intro vs
    constructor
    · intro h
      unfold convItems at h
      cases hx : strtox item t with
      | error e =>
        rw [hx] at h
        simp at h
      | ok v =>
        rw [hx] at h
        simp only at h
        cases hr : convItems t rest with
        | error e =>
          rw [hr] at h
          simp at h
        | ok vs2 =>
          rw [hr] at h
          simp only [Except.ok.injEq] at h
          subst h
          exact List.Forall₂.cons hx ((ih vs2).mp hr)
    · intro h
      cases h with
      | cons hx hrest =>
        unfold convItems
        rw [hx]
        simp only
        rw [(ih _).mpr hrest]

lemma convItems_abort (t : DataType) :
    ∀ (xs : List String) (bad : String) (ys : List String) (e : ConvErr),
      (∀ x ∈ xs, ∃ v, strtox x t = .ok v) → strtox bad t = .error e →
      convItems t (xs ++ bad :: ys) = .error (e, bad) := by
  intro xs
  induction xs with
  | nil =>
    intro bad ys e hxs hbad
    simp [convItems, hbad]
  | cons x xs ih =>
    intro bad ys e hxs hbad
    obtain ⟨v, hv⟩ := hxs x (List.mem_cons_self x xs)
    simp only [List.cons_append]
    unfold convItems
    rw [hv]
    simp only
    rw [ih bad ys e (fun y hy => hxs y (List.mem_cons_of_mem x hy)) hbad]

/-! ### Range and round-trip lemmas for the integer conversions -/

lemma signedConv_ok {lo hi v : Int} (h1 : lo ≤ v) (h2 : v ≤ hi) :
    signedConv lo hi (intRepr v) = .ok (.vint v) := by
  rw [signedConv_intRepr, if_neg (not_or.mpr ⟨not_lt.mpr h1, not_lt.mpr h2⟩)]

lemma signedConv_oor {lo hi v : Int} (h : v < lo ∨ hi < v) :
    signedConv lo hi (intRepr v) = .error .outOfRange := by
  rw [signedConv_intRepr, if_pos h]

lemma unsignedConv_ok {hi v : Int} (h0 : 0 ≤ v) (h2 : v ≤ hi) (hhi : hi ≤ ULONG_MAXv) :
    unsignedConv hi (intRepr v) = .ok (.vint v) := by
  rw [unsignedConv_intRepr_nonneg hi v h0,
    if_neg (not_lt.mpr (le_trans h2 hhi)), if_neg (not_lt.mpr h2)]

lemma unsignedConv_oor {hi v : Int} (h0 : 0 ≤ v) (h2 : hi < v) :
    unsignedConv hi (intRepr v) = .error .outOfRange := by
  rw [unsignedConv_intRepr_nonneg hi v h0]
  by_cases hU : ULONG_MAXv < v
  · rw [if_pos hU]
  · rw [if_neg hU, if_pos h2]

/-! ### Claim C1 -/

/-- C1: evaluation of the boolean conversion of strtox at the spelled inputs
and at the integer-fallback inputs.  The eight case-insensitive spellings
convert as the claim states, but the fallback stores the status code of the
inner integer conversion instead of the converted value: "1" converts
successfully to FALSE (the claim requires true), "0" and "2" also convert to
false, and "maybe" converts successfully to TRUE (the claim requires a
NotConvertible failure). -/
theorem C1_bool_conversion_eval :
    strtox "true" .bool = .ok (.vbool true)
    ∧ strtox "FALSE" .bool = .ok (.vbool false)
    ∧ strtox "Enabled" .bool = .ok (.vbool true)
    ∧ strtox "disabled" .bool = .ok (.vbool false)
    ∧ strtox "YES" .bool = .ok (.vbool true)
    ∧ strtox "no" .bool = .ok (.vbool false)
    ∧ strtox "On" .bool = .ok (.vbool true)
    ∧ strtox "oFF" .bool = .ok (.vbool false)
    ∧ strtox "1" .bool = .ok (.vbool false)
    ∧ strtox "0" .bool = .ok (.vbool false)
    ∧ strtox "2" .bool = .ok (.vbool false)
    ∧ strtox "maybe" .bool = .ok (.vbool true) :=
  ⟨rfl, rfl, rfl, rfl, rfl, rfl, rfl, rfl, rfl, rfl, rfl, rfl⟩

/-! ### Claim C4 -/

/-- C4 counterexample: the token "-1" with the unsigned long long tag fits
the generic numeral grammar and denotes a value outside the unsigned 64-bit
range, so the claim requires OutOfRange; the code instead succeeds, storing
the strtoull wraparound value 2 to the 64 minus 1. -/
theorem C4_counterexample :
    strtox "-1" .ullong = .ok (.vint 18446744073709551615) := rfl

/-- C4 (amended): for every integer type tag, a canonical decimal token
whose value lies within the target range round-trips exactly, and a token
whose value lies outside the range reports OutOfRange provided the token is
non-negative or the tag is signed; non-numeral tokens (empty, no digits, or
trailing garbage) report NotConvertible for every integer tag.  The
amendment: for the unsigned tags a negatively signed numeral is first
negated modulo 2 to the 64 (the width of unsigned long, as strtoul does) and
only then range-checked, so for example "-1" with a 64-bit unsigned tag
succeeds with the wrapped value. -/
theorem C4_integer_conversion :
    (∀ t ∈ integerTags, ∀ v : Int, tagLo t ≤ v → v ≤ tagHi t →
        strtox (intRepr v) t = .ok (.vint v))
    ∧ (∀ t ∈ integerTags, ∀ v : Int, isSignedIntTag t = true ∨ 0 ≤ v →
        v < tagLo t ∨ tagHi t < v → strtox (intRepr v) t = .error .outOfRange)
    ∧ (∀ t ∈ integerTags, isUnsignedIntTag t = true → ∀ v : Int,
        -(2 ^ 64) < v → v < 0 →
        strtox (intRepr v) t
          = if tagHi t < 2 ^ 64 + v then .error .outOfRange
            else .ok (.vint (2 ^ 64 + v)))
    ∧ (∀ t ∈ integerTags, strtox "" t = .error .notConvertible
        ∧ strtox "abc" t = .error .notConvertible
        ∧ strtox "12q" t = .error .notConvertible) := by
  refine ⟨?_, ?_, ?_, ?_⟩
  · intro t ht v h1 h2
    fin_cases ht <;>
      first
        | exact signedConv_ok h1 h2
        | exact unsignedConv_ok h1 h2
            (by norm_num [USHRT_MAXv, UINT_MAXv, UINT8_MAXv, ULONG_MAXv])
  · intro t ht v hsign hrange
    fin_cases ht <;>
      first
        | exact signedConv_oor hrange
        | (have h0 : (0 : Int) ≤ v := hsign.resolve_left (by decide)
           exact unsignedConv_oor h0 (hrange.resolve_left (not_lt.mpr h0)))
  · intro t ht hu v hv1 hv2
    fin_cases ht <;>
      first
        | exact absurd hu (by decide)
        | exact unsignedConv_intRepr_neg _ v hv2 hv1
  · intro t ht
    fin_cases ht <;> exact ⟨rfl, rfl, rfl⟩

/-- C4 witness: the round-trip part instantiated at the int tag and the
value 512, and the out-of-range part at the short tag and the value 70000. -/
theorem C4_integer_conversion_witness :
    strtox (intRepr 512) .int = .ok (.vint 512)
    ∧ strtox (intRepr 70000) .shrt = .error .outOfRange :=
  ⟨C4_integer_conversion.1 .int (by decide) 512 (by decide) (by decide),
   C4_integer_conversion.2.1 .shrt (by decide) 70000 (Or.inl rfl) (by decide)⟩

/-! ### Claim C5 -/

/-- C5 counterexample: converting the empty token succeeds for the string
tag (passthrough of the empty string) and for the boolean tag (the integer
fallback stores status 1, read back as true), refuting the claim that every
type tag fails on the empty token. -/
theorem C5_counterexample :
    strtox "" .str = .ok (.vstr "")
    ∧ strtox "" .bool = .ok (.vbool true) := ⟨rfl, rfl⟩

/-- C5 (amended): the empty token is a NotConvertible failure for every
integer type tag, but conversion succeeds for the string tag (empty-string
passthrough), the three character tags (which store the NUL terminator
byte), the boolean tag (whose integer fallback yields true), and the no-
conversion tag. -/
theorem C5_empty_token :
    (∀ t ∈ integerTags, strtox "" t = .error .notConvertible)
    ∧ strtox "" .str = .ok (.vstr "")
    ∧ strtox "" .char = .ok (.vint 0)
    ∧ strtox "" .schar = .ok (.vint 0)
    ∧ strtox "" .uchar = .ok (.vint 0)
    ∧ strtox "" .bool = .ok (.vbool true)
    ∧ strtox "" .dnone = .ok .vnone := by
  refine ⟨?_, rfl, rfl, rfl, rfl, rfl, rfl⟩
  intro t ht
  fin_cases ht <;> rfl

/-- C5 witness: the integer part instantiated at the int tag. -/
theorem C5_empty_token_witness : strtox "" .int = .error .notConvertible :=
  C5_empty_token.1 .int (by decide)

/-! ### Claim C9 -/

/-- C9: strtoarr splits on the delimiter set, skips empty items, converts
the non-empty items in left-to-right order (success is equivalent to a
pointwise conversion of the item sequence), aborts at the first failing item
propagating its conversion error annotated with that item, and yields the
empty result without error for a missing input string, a missing delimiter
set, or an empty input; the concrete split of "a,b,,c" yields the three
items a, b, c. -/
theorem C9_split :
    strtoarr (some "a,b,,c") (some ",") .str = .ok [.vstr "a", .vstr "b", .vstr "c"]
    ∧ splitNonEmpty "a,b,,c" "," = ["a", "b", "c"]
    ∧ (∀ (t : DataType) (d : Option String), strtoarr Option.none d t = .ok [])
    ∧ (∀ (t : DataType) (s : Option String), strtoarr s Option.none t = .ok [])
    ∧ (∀ t : DataType, strtoarr (some "") (some ",") t = .ok [])
    ∧ (∀ (t : DataType) (s d : String) (vs : List Value),
        strtoarr (some s) (some d) t = .ok vs ↔
          List.Forall₂ (fun item v => strtox item t = .ok v) (splitNonEmpty s d) vs)
    ∧ (∀ (t : DataType) (s d : String) (xs : List String) (bad : String)
        (ys : List String) (e : ConvErr),
        splitNonEmpty s d = xs ++ bad :: ys →
        (∀ x ∈ xs, ∃ v, strtox x t = .ok v) → strtox bad t = .error e →
        strtoarr (some s) (some d) t = .error (e, bad)) := by
  refine ⟨rfl, rfl, ?_, ?_, ?_, ?_, ?_⟩
  · intro t d
    cases d <;> rfl
  · intro t s
    cases s <;> rfl
  · intro t
    rfl
  · intro t s d vs
    exact convItems_ok_iff t (splitNonEmpty s d) vs
  · intro t s d xs bad ys e hsplit hxs hbad
    show convItems t (splitNonEmpty s d) = _
    rw [hsplit]
    exact convItems_abort t xs bad ys e hxs hbad

/-- C9 witness: the abort part instantiated at the input "1,x" with the int
tag, failing on the item "x". -/
theorem C9_split_witness :
    strtoarr (some "1,x") (some ",") .int = .error (.notConvertible, "x") :=
  C9_split.2.2.2.2.2.2 .int "1,x" "," ["1"] "x" [] .notConvertible rfl
    (by
      intro x hx
      simp only [List.mem_singleton] at hx
      subst hx
      exact ⟨.vint 1, rfl⟩) rfl

/-! ### Claim C2 -/

/-- C2 counterexample: a first top-level parse invocation executing option
-a of mutual-exclusion group 1 succeeds; a second, separate top-level
invocation on a fresh argument vector containing only option -b of the same
group then fails with a mutual-exclusion violation naming -a and -b, because
the static table of check_mutual_exclusivity is never cleared between
invocations.  The claim states that an occurrence from an earlier invocation
does not count against the current one. -/
theorem C2_counterexample :
    isOkE (optparse_parse 10 initState ["prog", "-a"] mxCmdAB) = true
    ∧ optparse_parse 10 (stOf (optparse_parse 10 initState ["prog", "-a"] mxCmdAB))
        ["prog", "-b"] mxCmdAB = .error (.mutualExclusion mxA mxB) := ⟨rfl, rfl⟩

/-- C2 (amended): the mutually-exclusive-group table is the process-lifetime
static array of check_mutual_exclusivity, never reset by a parse invocation.
For every option with a group id strictly between 0 and the configured
maximum, execution fails fatally, naming the recorded option and the current
one, exactly when the table already holds an option for that group -
including an occurrence of the same option and an occurrence recorded during
an earlier, separate top-level invocation - and otherwise the option is
recorded as the group occupant; every entry present at the start of a
successful invocation is still present at its end. -/
theorem C2_persistent_exclusion :
    (∀ (st : PState) (opt prev : Opt), 0 < opt.group → opt.group < GROUPS_MAX →
        st.excl opt.group = some prev →
        check_mutual_exclusivity st opt = .error (.mutualExclusion prev opt))
    ∧ (∀ (st : PState) (opt : Opt), 0 < opt.group → opt.group < GROUPS_MAX →
        st.excl opt.group = Option.none →
        check_mutual_exclusivity st opt
          = .ok { st with excl := fun g => if g = opt.group then some opt else st.excl g })
    ∧ (∀ (fuel : Nat) (st : PState) (argv : List String) (cmd : Cmd) (res : ParseRes)
        (g : Nat) (o : Opt), optparse_parse fuel st argv cmd = .ok res →
        st.excl g = some o → res.st.excl g = some o)
    ∧ isOkE (optparse_parse 10 initState ["prog", "-c"] mxCmdCD) = true
    ∧ optparse_parse 10 (stOf (optparse_parse 10 initState ["prog", "-c"] mxCmdCD))
        ["prog", "-d"] mxCmdCD = .error (.mutualExclusion mxC mxD)
    ∧ optparse_parse 10 initState ["prog", "-c", "-d"] mxCmdCD
        = .error (.mutualExclusion mxC mxD)
    ∧ optparse_parse 10 initState ["prog", "-c", "-c"] mxCmdCD
        = .error (.mutualExclusion mxC mxC) := by
  refine ⟨?_, ?_, ?_, rfl, rfl, rfl, rfl⟩
  · intro st opt prev h1 h2 hprev
    unfold check_mutual_exclusivity
    rw [if_pos ⟨h1, h2⟩, hprev]
  · intro st opt h1 h2 hnone
    unfold check_mutual_exclusivity
    rw [if_pos ⟨h1, h2⟩, hnone]
  · intro fuel st argv cmd res g o h hg
    exact parseLoop_excl_mono fuel st argv 1 (argv.take 1) false cmd res h hg

/-- C2 witness: the violation part instantiated at a state whose table holds
option -a of group 1 while option -b of the same group executes. -/
theorem C2_persistent_exclusion_witness :
    check_mutual_exclusivity
      { initState with excl := fun g => if g = 1 then some mxA else Option.none } mxB
      = .error (.mutualExclusion mxA mxB) :=
  C2_persistent_exclusion.1 _ mxB mxA (by decide) (by decide) rfl

/-! ### Claim C3 -/

/-- C3 counterexample: with a parent command declaring the child sub (which
declares option -x), the input sequence with the stand-alone double dash
before sub still descends into sub, where -x IS matched and executed as an
option (its flag destination ends at 1), and a token after the double dash
that matches no child name is a fatal unknown command rather than an
operand.  The claim states that after the double dash no later token is ever
matched as an option and every subsequent token is treated as an operand,
for every command scope including commands with children. -/
theorem C3_counterexample :
    flagOf (optparse_parse 10 initState ["prog", "--", "sub", "-x"] c3cmd) "x" = 1
    ∧ isOkE (optparse_parse 10 initState ["prog", "--", "sub", "-x"] c3cmd) = true
    ∧ optparse_parse 10 initState ["prog", "--", "foo"] c3cmd
        = .error (.unknownCommand "foo") := ⟨rfl, rfl, rfl⟩

/-- C3 (amended): the stand-alone double dash switches the CURRENT command
scope into ignore-options mode.  In a leaf scope (no children) every
remaining token, option-looking or not, is then appended to the operand
vector and the scope terminates without error.  In a scope with children,
tokens are still matched against child names: a non-matching token is a
fatal unknown command, and a matching token causes descent into the child
with a fresh scope in which ignore-options mode is off again, so option
matching resumes there. -/
theorem C3_ignore_mode :
    (∀ (fuel : Nat) (st : PState) (orig : List String) (idx : Nat)
        (out : List String) (cmd : Cmd), orig.get? idx = some "--" →
        parseLoop (fuel + 1) st orig idx out false cmd
          = parseLoop fuel st orig (idx + 1) out true cmd)
    ∧ (∀ (fuel : Nat) (st : PState) (orig : List String) (idx : Nat)
        (out : List String) (cmd : Cmd), cmd.subcommands = Option.none →
        0 < fuel → orig.length < idx + fuel →
        parseLoop fuel st orig idx out true cmd =
          .ok { argc := (out ++ orig.drop idx).length
                argv := out ++ orig.drop idx
                st := st
                callback := if cmd.hasFunction then
                    some ((out ++ orig.drop idx).length, out ++ orig.drop idx)
                  else Option.none
                cbCursor := if cmd.hasFunction then
                    some { args := out ++ orig.drop idx, idx := 0 }
                  else Option.none })
    ∧ (∀ (fuel : Nat) (st : PState) (orig : List String) (idx : Nat)
        (out : List String) (cmd : Cmd) (subs : List Cmd) (tok : String),
        orig.get? idx = some tok → cmd.subcommands = some subs →
        (findSub tok subs = Option.none →
          parseLoop (fuel + 1) st orig idx out true cmd
            = .error (.unknownCommand tok))
        ∧ (∀ sub, findSub tok subs = some sub →
          parseLoop (fuel + 1) st orig idx out true cmd
            = parseLoop fuel st (out ++ orig.drop (idx + 1)) 1
                ((out ++ orig.drop (idx + 1)).take 1) false sub)) := by
  refine ⟨?_, parseLoop_ignore_leaf, ?_⟩
  · intro fuel st orig idx out cmd h
    conv_lhs => unfold parseLoop
    rw [h]
    rfl
  · intro fuel st orig idx out cmd subs tok horig hsubs
    constructor
    · intro hfind
      conv_lhs => unfold parseLoop
      rw [horig]
      simp only [Bool.not_true, Bool.false_and, Bool.false_eq_true, if_false, hsubs, hfind]
    · intro sub hfind
      conv_lhs => unfold parseLoop
      rw [horig]
      simp only [Bool.not_true, Bool.false_and, Bool.false_eq_true, if_false, hsubs, hfind]

/-- C3 witness: the double-dash step instantiated on a concrete vector, and
the leaf ignore-mode behavior instantiated on a concrete option-looking
token that ends as an operand. -/
theorem C3_ignore_mode_witness :
    parseLoop 6 initState ["prog", "--", "-a"] 1 ["prog"] false cmd6
      = parseLoop 5 initState ["prog", "--", "-a"] 2 ["prog"] true cmd6
    ∧ argvOf (parseLoop 5 initState ["prog", "--", "-a"] 2 ["prog"] true cmd6)
        = ["prog", "-a"] :=
  ⟨C3_ignore_mode.1 5 initState ["prog", "--", "-a"] 1 ["prog"] cmd6 rfl,
   by
     rw [C3_ignore_mode.2.1 5 initState ["prog", "--", "-a"] 2 ["prog"] cmd6 rfl
       (by decide) (by decide)]
     rfl⟩

/-! ### Claim C6 -/

/-- C6: the short-option cluster scan.  Rule 1: a matched option taking no
argument discards the trailing text as its argument and scanning continues
into that text as further clustered options.  Rule 2: a matched option that
takes an argument consumes the trailing text as its attached value and
processing of the token stops.  Rule 3: a matched option requiring an
argument with no trailing text consumes the next argument-vector token as
the value, and the parse fails fatally when the vector is exhausted.  Rule
4: an unmatched character is a fatal unknown option.  Concretely, for the
options -a (flag), -b VALUE (required string argument) and -v, --verbose
(increment flag), parsing -abVALUE --verbose -v sets flag a, stores VALUE
for b, and leaves the verbose counter at 2. -/
theorem C6_short_option_cluster :
    (∀ (orig : List String) (tok : String) (opts : List Opt) (st st1 st2 : PState)
        (idx : Nat) (c : Char) (tail : List Char) (opt : Opt), tail ≠ [] →
        findShort c opts = some opt → opt.argName = Option.none →
        check_mutual_exclusivity st opt = .ok st1 →
        execute_option st1 opt Option.none = .ok st2 →
        execute_short_go orig tok opts st idx (c :: tail)
          = execute_short_go orig tok opts st2 idx tail)
    ∧ (∀ (orig : List String) (tok : String) (opts : List Opt) (st st1 st2 : PState)
        (idx : Nat) (c : Char) (tail : List Char) (opt : Opt) (an : String), tail ≠ [] →
        findShort c opts = some opt → opt.argName = some an →
        check_mutual_exclusivity st opt = .ok st1 →
        execute_option st1 opt (some (String.mk tail)) = .ok st2 →
        execute_short_go orig tok opts st idx (c :: tail) = .ok (st2, idx))
    ∧ (∀ (orig : List String) (tok : String) (opts : List Opt) (st st1 : PState)
        (idx : Nat) (c : Char) (opt : Opt) (an : String),
        findShort c opts = some opt → opt.argName = some an → argOptional an = false →
        check_mutual_exclusivity st opt = .ok st1 →
        (orig.get? (idx + 1) = Option.none →
          execute_short_go orig tok opts st idx [c] = .error (.missingArgShort c))
        ∧ (∀ (nxt : String) (st2 : PState), orig.get? (idx + 1) = some nxt →
            execute_option st1 opt (some nxt) = .ok st2 →
            execute_short_go orig tok opts st idx [c] = .ok (st2, idx + 1)))
    ∧ (∀ (orig : List String) (tok : String) (opts : List Opt) (st : PState)
        (idx : Nat) (c : Char) (tail : List Char),
        findShort c opts = Option.none →
        execute_short_go orig tok opts st idx (c :: tail)
          = .error (shortUnknownErr tok c))
    ∧ flagOf (optparse_parse 10 initState ["prog", "-abVALUE", "--verbose", "-v"] cmd6) "a" = 1
    ∧ storageOf (optparse_parse 10 initState ["prog", "-abVALUE", "--verbose", "-v"] cmd6) "b"
        = some (.vstr "VALUE")
    ∧ flagOf (optparse_parse 10 initState ["prog", "-abVALUE", "--verbose", "-v"] cmd6) "v" = 2
    ∧ isOkE (optparse_parse 10 initState ["prog", "-abVALUE", "--verbose", "-v"] cmd6)
        = true := by
  refine ⟨?_, ?_, ?_, ?_, rfl, rfl, rfl, rfl⟩
  · intro orig tok opts st st1 st2 idx c tail opt htail hfind han hchk hex
    obtain ⟨c2, t2, rfl⟩ := List.exists_cons_of_ne_nil htail
    simp only [execute_short_go, hfind, hchk, han, hex]
  · intro orig tok opts st st1 st2 idx c tail opt an htail hfind han hchk hex
    obtain ⟨c2, t2, rfl⟩ := List.exists_cons_of_ne_nil htail
    simp only [execute_short_go, hfind, hchk, han, hex]
  · intro orig tok opts st st1 idx c opt an hfind han hopt hchk
    constructor
    · intro hget
      simp only [execute_short_go, hfind, hchk, han, hopt, Bool.false_eq_true,
        if_false, hget]
    · intro nxt st2 hget hex
      simp only [execute_short_go, hfind, hchk, han, hopt, Bool.false_eq_true,
        if_false, hget, hex]
  · intro orig tok opts st idx c tail hfind
    simp only [execute_short_go, hfind]

/-- C6 witness: the required-argument rule instantiated at option -b with an
exhausted argument vector. -/
theorem C6_short_option_cluster_witness :
    execute_short_go ["prog"] "-b" [optB6] initState 0 ['b']
      = .error (.missingArgShort 'b') :=
  (C6_short_option_cluster.2.2.1 ["prog"] "-b" [optB6] initState initState 0 'b'
    optB6 "VALUE" rfl rfl rfl rfl).1 rfl

/-! ### Claim C7 -/

/-- C7: the long-option error policy.  An attached value on a matched
descriptor that takes no argument is a fatal unwanted option-argument; a
matched descriptor requiring an argument (argument name present, not marked
optional) with no attached value consumes the next argument-vector token and
fails fatally when the vector is exhausted; a token whose name part matches
no descriptor is a fatal unknown option (likewise with a NULL option array);
and any such failure aborts the surrounding parse step with the same
error. -/
theorem C7_long_option_errors :
    (∀ (st st1 : PState) (orig : List String) (idx : Nat) (tok name a : String)
        (opts : List Opt) (opt : Opt),
        splitEq tok = (name, some a) → findLong name opts = some opt →
        opt.argName = Option.none → check_mutual_exclusivity st opt = .ok st1 →
        execute_long_option st orig idx tok (some opts) = .error (.unwantedArgument a))
    ∧ (∀ (st st1 : PState) (orig : List String) (idx : Nat) (tok name : String)
        (opts : List Opt) (opt : Opt) (an : String),
        splitEq tok = (name, Option.none) → findLong name opts = some opt →
        opt.argName = some an → argOptional an = false →
        check_mutual_exclusivity st opt = .ok st1 →
        (orig.get? (idx + 1) = Option.none →
          execute_long_option st orig idx tok (some opts) = .error (.missingArgLong name))
        ∧ (∀ (nxt : String) (st2 : PState), orig.get? (idx + 1) = some nxt →
            execute_option st1 opt (some nxt) = .ok st2 →
            execute_long_option st orig idx tok (some opts) = .ok (st2, idx + 1)))
    ∧ (∀ (st : PState) (orig : List String) (idx : Nat) (tok : String) (opts : List Opt),
        findLong (splitEq tok).1 opts = Option.none →
        execute_long_option st orig idx tok (some opts)
          = .error (.unknownOption (splitEq tok).1))
    ∧ (∀ (st : PState) (orig : List String) (idx : Nat) (tok : String),
        execute_long_option st orig idx tok Option.none = .error (.unknownOption tok))
    ∧ (∀ (fuel : Nat) (st : PState) (orig : List String) (idx : Nat) (out : List String)
        (cmd : Cmd) (tok : String) (e : PErr), orig.get? idx = some tok →
        tok.toList.getD 0 '\x00' = '-' → tok.toList.getD 1 '\x00' = '-' →
        tok.toList.getD 2 '\x00' ≠ '\x00' →
        execute_long_option st orig idx (String.mk (tok.toList.drop 2)) cmd.options
          = .error e →
        parseLoop (fuel + 1) st orig idx out false cmd = .error e) := by
  refine ⟨?_, ?_, ?_, ?_, ?_⟩
  · intro st st1 orig idx tok name a opts opt hsplit hfind han hchk
    simp only [execute_long_option, hsplit, hfind, hchk, han, if_true]
  · intro st st1 orig idx tok name opts opt an hsplit hfind han hopt hchk
    constructor
    · intro hget
      simp only [execute_long_option, hsplit, hfind, hchk, han, hopt,
        Bool.false_eq_true, if_false, hget]
    · intro nxt st2 hget hex
      simp only [execute_long_option, hsplit, hfind, hchk, han, hopt,
        Bool.false_eq_true, if_false, hget, hex]
  · intro st orig idx tok opts hfind
    rcases hsplit : splitEq tok with ⟨name, att⟩
    rw [hsplit] at hfind
    simp only at hfind
    simp only [execute_long_option, hsplit, hfind]
  · intro st orig idx tok
    rfl
  · intro fuel st orig idx out cmd tok e horig h0 h1 h2 hex
    have hb2 : (tok.toList.getD 2 '\x00' == '\x00') = false := beq_eq_false_iff_ne.mpr h2
    conv_lhs => unfold parseLoop
    rw [horig]
    simp only [h0, h1, beq_self_eq_true, Bool.not_false, Bool.true_and, if_true,
      hb2, Bool.false_eq_true, if_false, hex]

/-- C7 witness: the unwanted-argument rule instantiated at the no-argument
option --opt receiving the attached value. -/
theorem C7_long_option_errors_witness :
    execute_long_option initState [] 0 "opt=value" (some [optNoArg])
      = .error (.unwantedArgument "value") :=
  C7_long_option_errors.1 initState initState [] 0 "opt=value" "opt" "value"
    [optNoArg] optNoArg rfl rfl rfl rfl

/-! ### Claim C8 -/

/-- C8: the argument-vector contract.  For every successful parse starting
from a non-empty vector, the returned vector keeps the program identifier in
slot 0, its count equals its length (the slot at index argc is the list end,
that is the null terminator), and the entries after slot 0 are tokens of the
original vector in their original relative order.  Concretely, descending
prog, remote, add with two operands compacts the vector to the program-name
slot followed by exactly the two operands and hands it to the terminal
callback, and a consumed detached option-argument does not appear among the
operands. -/
theorem C8_argv_contract :
    (∀ (fuel : Nat) (st : PState) (a0 : String) (rest : List String) (cmd : Cmd),
        isOkE (parseTop fuel st (a0 :: rest) cmd) = true →
        (argvOf (parseTop fuel st (a0 :: rest) cmd)).head? = some a0
        ∧ argcOf (parseTop fuel st (a0 :: rest) cmd)
            = (argvOf (parseTop fuel st (a0 :: rest) cmd)).length
        ∧ List.Sublist (argvOf (parseTop fuel st (a0 :: rest) cmd)).tail rest)
    ∧ argvOf (optparse_parse 10 initState ["prog", "remote", "add", "origin", "http"] treeCmd)
        = ["prog", "origin", "http"]
    ∧ argcOf (optparse_parse 10 initState ["prog", "remote", "add", "origin", "http"] treeCmd)
        = 3
    ∧ cbOf (optparse_parse 10 initState ["prog", "remote", "add", "origin", "http"] treeCmd)
        = some (3, ["prog", "origin", "http"])
    ∧ argvOf (optparse_parse 10 initState ["prog", "-b", "VAL", "op1"] leafF)
        = ["prog", "op1"]
    ∧ argcOf (optparse_parse 10 initState ["prog", "-b", "VAL", "op1"] leafF) = 2 := by
  refine ⟨?_, rfl, rfl, rfl, rfl, rfl⟩
  intro fuel st a0 rest cmd hok
  cases hres : parseTop fuel st (a0 :: rest) cmd with
  | error e =>
    rw [hres] at hok
    simp [isOkE] at hok
  | ok res =>
    obtain ⟨⟨ops, hargv, hsub⟩, hlen, _, _⟩ :=
      parseLoop_shape fuel st (a0 :: rest) 1 ((a0 :: rest).take 1) false cmd res
        (by simp) hres
    refine ⟨?_, hlen, ?_⟩
    · rw [show argvOf (Except.ok res) = res.argv from rfl, hargv]
      rfl
    · rw [show argvOf (Except.ok res) = res.argv from rfl, hargv]
      exact hsub

/-- C8 witness: the contract instantiated at a concrete successful parse
with two operands. -/
theorem C8_argv_contract_witness :
    (argvOf (parseTop 10 initState ["prog", "x", "y"] cmd6)).head? = some "prog"
    ∧ List.Sublist (argvOf (parseTop 10 initState ["prog", "x", "y"] cmd6)).tail
        ["x", "y"] :=
  ⟨(C8_argv_contract.1 10 initState "prog" ["x", "y"] cmd6 rfl).1,
   (C8_argv_contract.1 10 initState "prog" ["x", "y"] cmd6 rfl).2.2⟩

/-! ### Claim C10 -/

/-- C10: before invoking the terminal operand callback the parser resets the
shared scan index to 0, so the cursor a callback starts from has index 0
over the compacted vector, and the first optparse_shift call made from
inside the callback pre-increments the index to 1 and returns slot 1 of the
compacted vector - the first operand (or the null terminator when there is
none) - rather than continuing from the last parsed position. -/
theorem C10_shift_resets_cursor :
    (∀ (fuel : Nat) (st : PState) (a0 : String) (rest : List String) (cmd : Cmd)
        (c : Cursor), cursorOf (parseTop fuel st (a0 :: rest) cmd) = some c →
        c.idx = 0
        ∧ c.args = argvOf (parseTop fuel st (a0 :: rest) cmd)
        ∧ (optparse_shift c).1 = (argvOf (parseTop fuel st (a0 :: rest) cmd)).get? 1
        ∧ (optparse_shift c).2.idx = 1)
    ∧ cursorOf (optparse_parse 10 initState ["prog", "x", "y"] leafF)
        = some { args := ["prog", "x", "y"], idx := 0 }
    ∧ (optparse_shift { args := ["prog", "x", "y"], idx := 0 }).1 = some "x" := by
  refine ⟨?_, rfl, rfl⟩
  intro fuel st a0 rest cmd c hc
  cases hres : parseTop fuel st (a0 :: rest) cmd with
  | error e =>
    rw [hres] at hc
    simp [cursorOf] at hc
  | ok res =>
    rw [hres] at hc
    simp only [cursorOf] at hc
    obtain ⟨⟨ops, hargv, hsub⟩, hlen, hcur, hcb⟩ :=
      parseLoop_shape fuel st (a0 :: rest) 1 ((a0 :: rest).take 1) false cmd res
        (by simp) hres
    obtain ⟨hargs, hidx⟩ := hcur c hc
    obtain ⟨cargs, cidx⟩ := c
    simp only at hargs hidx
    subst hargs
    subst hidx
    refine ⟨rfl, rfl, ?_, ?_⟩
    · rw [show argvOf (Except.ok res) = res.argv from rfl, hargv]
      rfl
    · rw [hargv]
      rfl

/-- C10 witness: the reset-and-shift behavior at a concrete parse with
operands x and y; the first shift from the callback cursor returns slot 1 of
the compacted vector. -/
theorem C10_shift_resets_cursor_witness :
    (optparse_shift { args := ["prog", "x", "y"], idx := 0 }).1
      = (argvOf (parseTop 10 initState ["prog", "x", "y"] leafF)).get? 1 :=
  (C10_shift_resets_cursor.1 10 initState "prog" ["x", "y"] leafF
    { args := ["prog", "x", "y"], idx := 0 } rfl).2.2.1
